import Mathlib

/-!
# micro-plugins: gRPC gateway and HTTP server plugins

A shallow embedding of `server/grpc-gateway/gateway.go` and `server/http/http.go`.

Go strings are modelled by Lean strings (sequences of code points); for valid UTF-8 text
substring search on bytes and on code points agree.  The library functions the two files
call (`strings.Replace`, `path.Clean`, the `gorilla/mux` router, `encoding/json`,
`grpc/status`, `runtime.HTTPStatusFromCode`) are embedded next to the code that calls them,
each under the name it has in its own package; the compiler of package `regexp` and the
case table of package `unicode` are parameters.
-/

set_option autoImplicit false

/-! ## Package `strings` -/

namespace Strings

/-- Position of the first occurrence of `substr` in `s` (`strings.Index`);
`none` stands for the result `-1`. -/
def indexList (substr : List Char) : List Char → Option Nat
  | [] => if substr.isPrefixOf [] then some 0 else none
  | c :: t => if substr.isPrefixOf (c :: t) then some 0 else (indexList substr t).map (· + 1)

/-- The loop of `strings.Count` for a non-empty `substr`: count and skip each occurrence.
Every round consumes at least one character, so `s.length + 1` rounds are enough. -/
def countLoop (substr : List Char) : Nat → List Char → Nat
  | 0, _ => 0
  | fuel + 1, s =>
    match indexList substr s with
    | none => 0
    | some i => 1 + countLoop substr fuel (s.drop (i + substr.length))

/-- Number of non-overlapping occurrences (`strings.Count`); for the empty `substr` it is
the number of code points plus one. -/
def countList (s substr : List Char) : Nat :=
  if substr = [] then s.length + 1 else countLoop substr (s.length + 1) s

/-- The replacement loop of `strings.Replace`: `rest` is `s[start:]`, `first` tells the
first round (`i == 0`).  With an empty `old` a round after the first steps over one code
point; otherwise it steps to the next occurrence of `old`. -/
def replaceLoop (old new : List Char) : Nat → Bool → List Char → List Char
  | 0, _, rest => rest
  | k + 1, first, rest =>
    let j := if old = [] then (if first then 0 else min 1 rest.length)
             else (indexList old rest).getD 0
    rest.take j ++ new ++ replaceLoop old new k false (rest.drop (j + old.length))

/-- Body of `strings.Replace(s, old, new, n)` on code-point lists. -/
def replaceList (s old new : List Char) (n : Int) : List Char :=
  if old = new ∨ n = 0 then s
  else
    let m := countList s old
    if m = 0 then s
    else
      let n1 := if n < 0 ∨ (m : Int) < n then m else n.toNat
      replaceLoop old new n1 true s

/-- The function `strings.Replace`: the first `n` non-overlapping occurrences of `old` are
replaced by `new` (all of them when `n < 0`). -/
def Replace (s old new : String) (n : Int) : String :=
  String.mk (replaceList s.data old.data new.data n)

/-- The function `strings.Index`, `none` for `-1`. -/
def Index (s substr : String) : Option Nat :=
  indexList substr.data s.data

/-- The function `strings.Contains`. -/
def Contains (s substr : String) : Bool :=
  (indexList substr.data s.data).isSome

/-- The function `strings.HasPrefix`. -/
def HasPrefix (s pre : String) : Bool :=
  pre.data.isPrefixOf s.data

/-- The function `strings.TrimRight(s, cutset)`: trailing characters of `cutset` removed. -/
def TrimRight (s cutset : String) : String :=
  String.mk (s.data.reverse.dropWhile (fun c => cutset.data.contains c)).reverse

/-- The function `strings.ToUpper` on ASCII text (letters `a`..`z` are raised). -/
def ToUpper (s : String) : String :=
  String.mk (s.data.map Char.toUpper)

/-- The function `strings.ToUpper` on any text: an ASCII character is raised as above, a
rune above ASCII goes through `unicode.ToUpper`, here the table `upper`. -/
def ToUpperWith (upper : Char → Char) (s : String) : String :=
  String.mk (s.data.map (fun c => if c.toNat < 128 then c.toUpper else upper c))

/-- Whether every character is ASCII (below `utf8.RuneSelf`). -/
def isASCII (s : String) : Bool :=
  s.data.all (fun c => decide (c.toNat < 128))

end Strings

/-! ## Package `path` and the path cleaning of `gorilla/mux` -/

namespace Path

/-- The path elements between slashes. -/
def splitSlash : List Char → List (List Char)
  | [] => [[]]
  | c :: t =>
    if c = '/' then [] :: splitSlash t
    else match splitSlash t with
      | [] => [[c]]
      | seg :: segs => (c :: seg) :: segs

/-- One element of the lexical pass of `path.Clean`; `stack` holds the kept elements, the
last one first.  Empty and `.` elements are dropped, a `..` element removes the element
before it, or is dropped at the root, or is kept at the start of an unrooted path. -/
def cleanStep (rooted : Bool) (stack : List (List Char)) (seg : List Char) :
    List (List Char) :=
  if seg = [] ∨ seg = ['.'] then stack
  else if seg = ['.', '.'] then
    match stack with
    | top :: below => if top = ['.', '.'] then seg :: stack else below
    | [] => if rooted then [] else [seg]
  else seg :: stack

/-- The function `path.Clean`. -/
def Clean (p : String) : String :=
  let rooted := p.data.head? = some '/'
  let kept := ((splitSlash p.data).foldl (cleanStep rooted) []).reverse
  let out := (if rooted then ['/'] else []) ++ List.intercalate ['/'] kept
  if out = [] then "." else String.mk out

end Path

/-! ## Packages `unicode` and `regexp`, taken as parameters -/

namespace Regexp

/-- The meaning of a pattern compiled as one group of a larger regular expression:
`p s i j` tells whether the group can match `s[i:j]` at that place of the subject `s`. -/
abbrev Pattern := List Char → Nat → Nat → Bool

/-- What compiling the pattern of a template variable gives: its meaning, or an error of
`regexp.Compile`, or a pattern that compiles but has capturing groups of its own. -/
inductive Compiled where
  | ok (p : Pattern)
  | bad
  | captures

end Regexp

/-- The library data the router reads that is not part of this repository: the upper-case
table of package `unicode` for the runes above ASCII, and the compiler of package `regexp`
for the pattern of a template variable. -/
structure Lib where
  unicodeToUpper : Char → Char
  regexpCompile : String → Regexp.Compiled

/-! ## The `gorilla/mux` router -/

namespace Mux

/-- The request fields the router and the handlers read: `r.Method` and `r.URL.Path`. -/
structure Request where
  Method : String
  Path : String
  deriving DecidableEq, Repr

/-- What a handler wrote: the status code and the body. -/
structure Response where
  status : Nat
  body : String
  deriving DecidableEq, Repr

/-- The function `cleanPath` of `mux.go`: the canonical form of a request path. -/
def cleanPath (p : String) : String :=
  if p = "" then "/"
  else
    let p1 := if p.data.head? = some '/' then p else "/" ++ p
    let np := Path.Clean p1
    if p1.data.getLast? = some '/' ∧ np ≠ "/" then np ++ "/" else np

/-- The two kinds of path matcher: `Path(tpl)` compiles `^tpl$`, `PathPrefix(tpl)`
compiles `^tpl`. -/
inductive regexpType where
  | regexpTypePath
  | regexpTypePrefix
  deriving DecidableEq, Repr

/-- Whether a template has a brace, that is declares variables (or is rejected by
`braceIndices`). -/
def hasBraces (tpl : String) : Bool :=
  tpl.data.any (fun c => c = '\x7b' || c = '\x7d')

/-- A piece of a template: a character outside braces, or the text between an outermost
pair of braces. -/
inductive rawSegment where
  | chr (c : Char)
  | var (content : List Char)
  deriving DecidableEq, Repr

/-- The function `braceIndices` of `regexp.go` together with the cut of the template at
the indices it returns: `level` counts the open braces, `acc` holds the text of the
variable being read, last character first.  A closing brace at level 0 and an end of the
template inside a variable are the error "mux: unbalanced braces" (`none`). -/
def braceScan : Nat → List Char → List Char → Option (List rawSegment)
  | 0, _, [] => some []
  | _ + 1, _, [] => none
  | 0, _, c :: t =>
    if c = '\x7b' then braceScan 1 [] t
    else if c = '\x7d' then none
    else (braceScan 0 [] t).map (fun r => rawSegment.chr c :: r)
  | n + 1, acc, c :: t =>
    if c = '\x7b' then braceScan (n + 2) (c :: acc) t
    else if c = '\x7d' then
      match n with
      | 0 => (braceScan 0 [] t).map (fun r => rawSegment.var acc.reverse :: r)
      | m + 1 => braceScan (m + 1) (c :: acc) t
    else braceScan (n + 1) (c :: acc) t

/-- The variable `{name}` or `{name:pattern}` of a path template in `newRouteRegexp`:
`strings.SplitN(content, ":", 2)` gives the name and the pattern, the pattern of a variable
without one is `[^/]+`; an empty name or pattern is the error "mux: missing name or
pattern", otherwise the pattern is compiled on its own (`regexp.Compile("^" + patt + "$")`,
so it is a regular expression by itself) before it is written into the expression of the
template as the group `(?P<v>patt)`. -/
def compileVar (lib : Lib) (content : List Char) : Regexp.Compiled :=
  let name := content.takeWhile (fun c => c ≠ ':')
  let patt := match content.dropWhile (fun c => c ≠ ':') with
    | [] => "[^/]+".data
    | _ :: rest => rest
  if name = [] ∨ patt = [] then Regexp.Compiled.bad else lib.regexpCompile (String.mk patt)

/-- A piece of the regular expression of a template: a quoted character
(`regexp.QuoteMeta`) or the group of a variable. -/
inductive segment where
  | chr (c : Char)
  | group (p : Regexp.Pattern)

/-- The piece of the regular expression a piece of the template stands for. -/
def segmentOf (lib : Lib) : rawSegment → segment
  | .chr c => segment.chr c
  | .var content =>
    match compileVar lib content with
    | .ok p => segment.group p
    | _ => segment.group (fun _ _ _ => false)

/-- Whether a piece of the template is a variable that is rejected with an error. -/
def rawSegment.isBad (lib : Lib) : rawSegment → Bool
  | .chr _ => false
  | .var content =>
    match compileVar lib content with
    | .bad => true
    | _ => false

/-- Whether a piece of the template is a variable whose pattern has capturing groups. -/
def rawSegment.hasCaptures (lib : Lib) : rawSegment → Bool
  | .chr _ => false
  | .var content =>
    match compileVar lib content with
    | .captures => true
    | _ => false

/-- What `newRouteRegexp` does with a template: it returns the regular expression
`^` piece piece ... (`$`), or an error, or it panics. -/
inductive regexpResult where
  | ok (segs : List segment)
  | err
  | panic

/-- Whether a regular expression was returned. -/
def regexpResult.isOk : regexpResult → Bool
  | .ok _ => true
  | _ => false

/-- Whether the call panicked. -/
def regexpResult.isPanic : regexpResult → Bool
  | .panic => true
  | _ => false

/-- The pieces of the regular expression returned, none without one. -/
def regexpResult.segs : regexpResult → List segment
  | .ok segs => segs
  | _ => []

/-- The function `newRouteRegexp` (`regexp.go`) for a path template: unbalanced braces, a
variable without name or pattern and a pattern that does not compile are errors; when
all of it compiles, a pattern with capturing groups makes it panic ("route ... contains
capture groups in its regexp"); otherwise the literal text is quoted and every variable is
a group with its pattern. -/
def newRouteRegexp (lib : Lib) (tpl : String) : regexpResult :=
  match braceScan 0 [] tpl.data with
  | none => regexpResult.err
  | some raws =>
    if raws.any (rawSegment.isBad lib) then regexpResult.err
    else if raws.any (rawSegment.hasCaptures lib) then regexpResult.panic
    else regexpResult.ok (raws.map (segmentOf lib))

/-- Whether the pieces `segs` match the subject `s` from position `i` on: up to the end of
`s` when `exact` (the expression ends with `$`), up to any position otherwise. -/
def matchFrom (exact : Bool) : List segment → List Char → Nat → Bool
  | [], s, i => if exact then i == s.length else decide (i ≤ s.length)
  | segment.chr c :: rest, s, i => s.get? i == some c && matchFrom exact rest s (i + 1)
  | segment.group p :: rest, s, i =>
    (List.range (s.length + 1)).any (fun j => decide (i ≤ j) && p s i j && matchFrom exact rest s j)

/-- The template check and concatenation of `Route.addRegexpMatcher` (`route.go`) for path
matchers: `len(tpl) > 0 && tpl[0] != '/'` is the error "mux: path must start with a slash";
under a parent path matcher the template becomes
`strings.TrimRight(r.regexp.path.template, "/") + tpl`; then `newRouteRegexp` compiles it. -/
def addRegexpMatcher (lib : Lib) (parent : Option String) (tpl : String) : regexpResult :=
  if tpl ≠ "" ∧ tpl.data.head? ≠ some '/' then regexpResult.err
  else
    match parent with
    | some pt => newRouteRegexp lib (Strings.TrimRight pt "/" ++ tpl)
    | none => newRouteRegexp lib tpl

/-- A route of a subrouter: `err` is `r.err != nil`, `regexp` and `typ` are its path
matcher, `methods` its method matcher when it has one, `handler` what it serves. -/
structure Route (α : Type) where
  err : Bool
  regexp : List segment
  typ : regexpType
  methods : Option (List String)
  handler : Request → α

/-- The route `NewRoute().Path(tpl)` or `NewRoute().PathPrefix(tpl)` with its handler. -/
def newRoute {α : Type} (lib : Lib) (parent : Option String) (typ : regexpType) (tpl : String)
    (handler : Request → α) : Route α :=
  { err := !(addRegexpMatcher lib parent tpl).isOk
    regexp := (addRegexpMatcher lib parent tpl).segs
    typ := typ
    methods := none
    handler := handler }

/-- The path matcher of a route (`routeRegexp.Match`): the regular expression of the
template on `r.URL.Path`. -/
def Route.pathMatch {α : Type} (rt : Route α) (path : String) : Bool :=
  match rt.typ with
  | .regexpTypePath => matchFrom true rt.regexp path.data 0
  | .regexpTypePrefix => matchFrom false rt.regexp path.data 0

/-- The method matcher of a route (`methodMatcher.Match`). -/
def Route.methodMatch {α : Type} (rt : Route α) (method : String) : Bool :=
  match rt.methods with
  | none => true
  | some ms => ms.contains method

/-- The function `Route.Match`: a route with an error never matches (`r.err != nil`),
otherwise all of its matchers have to match. -/
def Route.Match {α : Type} (rt : Route α) (req : Request) : Bool :=
  !rt.err && rt.pathMatch req.Path && rt.methodMatch req.Method

/-- `Route.Methods(m)` (`route.go`): the matcher is added after
`methods[k] = strings.ToUpper(v)`, so it holds the method in upper case. -/
def Route.Methods {α : Type} (lib : Lib) (rt : Route α) (m : String) : Route α :=
  { rt with methods := some [Strings.ToUpperWith lib.unicodeToUpper m] }

/-- What the router does with a request. -/
inductive Outcome (α : Type) where
  /-- the path is not in canonical form: a 301 to the cleaned path, no route is tried -/
  | redirect (location : String)
  /-- no route matches: the router answers 404 or 405 itself, no registered handler runs -/
  | noRoute
  /-- the handler of the first matching route ran -/
  | served (result : α)
  deriving DecidableEq, Repr

/-- A router of the shape `router.PathPrefix(p).Subrouter()`: `pfxErr` and `pfxRegexp`
are the error and the regular expression of the outer prefix route, `routes` the routes of
the subrouter in registration order. -/
structure Router (α : Type) where
  pfxErr : Bool
  pfxRegexp : List segment
  routes : List (Route α)

/-- Whether the outer prefix route matches the path. -/
def Router.pfxMatch {α : Type} (r : Router α) (path : String) : Bool :=
  !r.pfxErr && matchFrom false r.pfxRegexp path.data 0

/-- The function `Router.ServeHTTP` (`mux.go`) with the default `skipClean == false`:
`if p := cleanPath(path); p != path` the answer is a redirect (`StatusMovedPermanently`)
and no route is tried; otherwise `Router.Match` takes the routes in registration order: the
outer prefix route has to match, then the first matching route of its subrouter serves. -/
def Router.ServeHTTP {α : Type} (r : Router α) (req : Request) : Outcome α :=
  if cleanPath req.Path ≠ req.Path then .redirect (cleanPath req.Path)
  else if !r.pfxMatch req.Path then .noRoute
  else
    match r.routes.find? (fun rt => rt.Match req) with
    | some rt => .served (rt.handler req)
    | none => .noRoute

end Mux

/-! ## Package `encoding/json`, as far as the error body needs it -/

namespace Json

/-- The values an `interface{}` of the error body can hold: a string, an `int32`, a
`map[string]interface{}` (its entries in any order), or a value JSON cannot encode. -/
inductive Value where
  | str (s : String)
  | int32 (i : Int)
  | object (fields : List (String × Value))
  | unsupported

/-- Lower-case hexadecimal digit (`hex` of `encode.go`). -/
def hexDigit (n : Nat) : Char :=
  "0123456789abcdef".data.getD n '0'

/-- One character of a JSON string as the encoder writes it with HTML escaping on (the
default of `json.NewEncoder`): quote and backslash get a backslash; newline, carriage
return and tab their short escapes; other control characters and `<`, `>`, `&` the
six-character `\u00xx` form; U+2028 and U+2029 are escaped; the rest is copied.
(Go releases from 1.22 on write backspace and form feed as `\b` and `\f`; the releases
go-micro v2 builds with write them in the `\u00xx` form, as here.) -/
def quoteChar (c : Char) : List Char :=
  if c = '"' then ['\\', '"']
  else if c = '\\' then ['\\', '\\']
  else if c = '\n' then ['\\', 'n']
  else if c = '\r' then ['\\', 'r']
  else if c = '\t' then ['\\', 't']
  else if c.toNat < 32 ∨ c = '<' ∨ c = '>' ∨ c = '&' then
    ['\\', 'u', '0', '0', hexDigit (c.toNat / 16), hexDigit (c.toNat % 16)]
  else if c.toNat = 8232 then ['\\', 'u', '2', '0', '2', '8']
  else if c.toNat = 8233 then ['\\', 'u', '2', '0', '2', '9']
  else [c]

/-- A JSON string literal (`appendString` with `escapeHTML`). -/
def quote (s : String) : String :=
  String.mk (['"'] ++ s.data.flatMap quoteChar ++ ['"'])

/-- Byte-wise order of two strings, the order `encoding/json` sorts map keys by. -/
def ltList : List Char → List Char → Bool
  | [], [] => false
  | [], _ :: _ => true
  | _ :: _, [] => false
  | a :: as, b :: bs =>
    if a.toNat < b.toNat then true
    else if b.toNat < a.toNat then false
    else ltList as bs

/-- Insertion of one encoded entry into a list sorted by key. -/
def insertKey (kv : String × String) : List (String × String) → List (String × String)
  | [] => [kv]
  | x :: xs => if ltList kv.1.data x.1.data then kv :: x :: xs else x :: insertKey kv xs

/-- The entries sorted by key. -/
def sortKeys (kvs : List (String × String)) : List (String × String) :=
  kvs.foldr insertKey []

/-- The members of an object, `"key":value` separated by commas. -/
def joinFields (kvs : List (String × String)) : String :=
  String.intercalate "," (kvs.map (fun kv => quote kv.1 ++ ":" ++ kv.2))

mutual
/-- The function `json.Marshal` on a value: a map is written with its keys sorted. -/
def marshalValue : Value → Except String String
  | .str s => .ok (quote s)
  | .int32 i => .ok (toString i)
  | .unsupported => .error "json: unsupported value"
  | .object fields =>
    match marshalFields fields with
    | .ok kvs => .ok ("\x7b" ++ joinFields (sortKeys kvs) ++ "\x7d")
    | .error e => .error e
/-- The entries of a map, each value encoded. -/
def marshalFields : List (String × Value) → Except String (List (String × String))
  | [] => .ok []
  | (k, v) :: rest =>
    match marshalValue v, marshalFields rest with
    | .ok e, .ok es => .ok ((k, e) :: es)
    | .error e, _ => .error e
    | _, .error e => .error e
end

end Json

/-! ## Package `net/http`: the response writer -/

namespace Http

/-- The state of an `http.ResponseWriter`: the header map, the status line once it is
written (with the header it was written with), and the body written so far. -/
structure ResponseWriter where
  header : List (String × String)
  sent : Option (Nat × List (String × String))
  body : String
  deriving DecidableEq, Repr

/-- A response writer nothing has been written to. -/
def ResponseWriter.fresh : ResponseWriter :=
  { header := [], sent := none, body := "" }

/-- `w.Header().Set(key, value)`: the key's entry is replaced. -/
def ResponseWriter.setHeader (w : ResponseWriter) (key value : String) : ResponseWriter :=
  { w with header := (key, value) :: w.header.filter (fun kv => kv.1 ≠ key) }

/-- `w.WriteHeader(code)`: the first call sends the status line and the header. -/
def ResponseWriter.WriteHeader (w : ResponseWriter) (code : Nat) : ResponseWriter :=
  match w.sent with
  | some _ => w
  | none => { w with sent := some (code, w.header) }

/-- `w.Write(data)`: sends status 200 when no status was written, then the data. -/
def ResponseWriter.Write (w : ResponseWriter) (data : String) : ResponseWriter :=
  let w1 := w.WriteHeader 200
  { w1 with body := w1.body ++ data }

/-- `json.NewEncoder(w).Encode(v)`: the encoding of `v` followed by a newline is written;
when `v` cannot be encoded nothing is written and the error is returned. -/
def Encode (w : ResponseWriter) (v : Json.Value) : ResponseWriter × Option String :=
  match Json.marshalValue v with
  | .ok s => (w.Write (s ++ "\n"), none)
  | .error e => (w, some e)

end Http

/-! ## Packages `grpc/codes`, `grpc/status` and `grpc-gateway/runtime` -/

namespace Grpc

/-- A gRPC status: its code (a `uint32`) and its message. -/
structure Status where
  Code : Nat
  Message : String
  deriving DecidableEq, Repr

/-- An `error` value: the status it carries when it has a `GRPCStatus` method, and the
text of `err.Error()`. -/
structure GoError where
  grpcStatus : Option Status
  Error : String
  deriving DecidableEq, Repr

/-- The code `codes.Unknown`. -/
def Unknown : Nat := 2

/-- The function `status.New`. -/
def New (c : Nat) (msg : String) : Status :=
  { Code := c, Message := msg }

/-- The function `status.FromError`: the carried status and `true`, or an `Unknown` status
with the error text and `false`. -/
def FromError (err : GoError) : Status × Bool :=
  match err.grpcStatus with
  | some s => (s, true)
  | none => (New Unknown err.Error, false)

/-- The code and the message an error stands for: those of the status it carries, or
`Unknown` and the error text when it carries none. -/
def codeAndMessage (err : GoError) : Nat × String :=
  match err.grpcStatus with
  | some s => (s.Code, s.Message)
  | none => (2, err.Error)

/-- The conversion `int32(c)` of a `uint32` code. -/
def toInt32 (c : Nat) : Int :=
  if c % 2 ^ 32 < 2 ^ 31 then ((c % 2 ^ 32 : Nat) : Int) else ((c % 2 ^ 32 : Nat) : Int) - 2 ^ 32

/-- The function `runtime.HTTPStatusFromCode` of grpc-gateway v1: the table from gRPC
codes (`OK` = 0 up to `Unauthenticated` = 16) to HTTP statuses; any other code gives 500. -/
def HTTPStatusFromCode (code : Nat) : Nat :=
  match code with
  | 0 => 200
  | 1 => 408
  | 2 => 500
  | 3 => 400
  | 4 => 504
  | 5 => 404
  | 6 => 409
  | 7 => 403
  | 16 => 401
  | 8 => 429
  | 9 => 400
  | 10 => 409
  | 11 => 400
  | 12 => 501
  | 13 => 500
  | 14 => 503
  | 15 => 500
  | _ => 500

end Grpc

/-! ## Package `registry` of go-micro -/

namespace MicroRegistry

/-- A node of a service record. -/
structure Node where
  Id : String
  Address : String
  deriving DecidableEq, Repr

/-- A service record. -/
structure Service where
  Name : String
  Version : String
  Nodes : List Node
  deriving DecidableEq, Repr

/-- A registry at one moment: the answer of `GetService(name)`, an error or the records. -/
structure Registry where
  GetService : String → Except String (List Service)

end MicroRegistry

/-! ## `server/grpc-gateway/gateway.go` -/

namespace GrpcGateway

open Mux

/-- The type `handle`: a custom handler with its path and method. -/
structure handle where
  Path : String
  Method : String
  HandleFunc : Request → Response

/-- The type `Handler`; `pfx` is its field `prefix`.  A `registerHandlerFunc` either fails
or registers the translation of the service on the gateway mux: `gwHandlerFunc endpoint`
is that error, or how the gateway mux then serves a request. -/
structure Handler where
  pfx : String
  endpoint : String
  serviceName : String
  gwHandlerFunc : String → Except String (Request → Response)
  beforeHandles : List handle
  afterHandles : List handle

/-- The method `BeforeHandle`. -/
def Handler.BeforeHandle (h : Handler) (path method : String) (f : Request → Response) :
    Handler :=
  { h with beforeHandles := h.beforeHandles ++ [{ Path := path, Method := method, HandleFunc := f }] }

/-- The method `AfterHandle`. -/
def Handler.AfterHandle (h : Handler) (path method : String) (f : Request → Response) :
    Handler :=
  { h with afterHandles := h.afterHandles ++ [{ Path := path, Method := method, HandleFunc := f }] }

/-- The function `NewHandler`. -/
def NewHandler (pfx endpoint : String)
    (gwFunc : String → Except String (Request → Response)) : Handler :=
  { pfx := pfx, endpoint := endpoint, serviceName := "", gwHandlerFunc := gwFunc,
    beforeHandles := [], afterHandles := [] }

/-- The function `NewHandlerWithServiceName`. -/
def NewHandlerWithServiceName (pfx serviceName : String)
    (gwFunc : String → Except String (Request → Response)) : Handler :=
  { pfx := pfx, endpoint := "", serviceName := serviceName, gwHandlerFunc := gwFunc,
    beforeHandles := [], afterHandles := [] }

/-- The function `CustomHTTPError`; `contentType` is `marshaler.ContentType()`. -/
def CustomHTTPError (contentType : String) (w : Http.ResponseWriter) (err : Grpc.GoError) :
    Http.ResponseWriter :=
  let fallback := "\x7b\"error\": \"failed to marshal error message\"\x7d"
  let s := match Grpc.FromError err with
    | (s, true) => s
    | (_, false) => Grpc.New Grpc.Unknown err.Error
  let data := Json.Value.object
    [("error", Json.Value.object
      [("message", Json.Value.str s.Message),
       ("code", Json.Value.int32 (Grpc.toInt32 s.Code))])]
  let w1 := w.setHeader "Content-type" contentType
  let w2 := w1.WriteHeader (Grpc.HTTPStatusFromCode s.Code)
  match Http.Encode w2 data with
  | (w3, none) => w3
  | (w3, some _) => w3.Write fallback

/-- Which handler a route of the gateway router runs. -/
inductive Target where
  | before (i : Nat)
  | gateway
  | after (i : Nat)
  deriving DecidableEq, Repr

/-- A handler invocation: the handler, the request as the handler sees it, its answer. -/
structure Call where
  target : Target
  request : Request
  response : Response
  deriving DecidableEq, Repr

/-- The closure every route is registered with: the path is rewritten by
`strings.Replace(r.URL.Path, prefix, "", 1)`, then the wrapped handler serves. -/
def rewriteAndServe (pfx : String) (target : Target) (f : Request → Response)
    (r : Request) : Call :=
  let r1 : Request := { r with Path := Strings.Replace r.Path pfx "" 1 }
  { target := target, request := r1, response := f r1 }

/-- The template the routes of the subrouter are put under: the prefix when the outer
route `router.PathPrefix(prefix)` has a regular expression, nothing when it has not. -/
def subrouterParent (lib : Lib) (pfx : String) : Option String :=
  if (addRegexpMatcher lib none pfx).isOk then some pfx else none

/-- The route `s.HandleFunc(tmp.Path, ...).Methods(tmp.Method)` of one entry. -/
def handleRoute (lib : Lib) (pfx : String) (target : Target) (item : handle) : Route Call :=
  Route.Methods lib
    (newRoute lib (subrouterParent lib pfx) regexpType.regexpTypePath item.Path
      (rewriteAndServe pfx target item.HandleFunc))
    item.Method

/-- The loop over a list of entries; `i` is the position of the first one. -/
def loadHandles (lib : Lib) (pfx : String) (mk : Nat → Target) :
    Nat → List handle → List (Route Call)
  | _, [] => []
  | i, item :: rest => handleRoute lib pfx (mk i) item :: loadHandles lib pfx mk (i + 1) rest

/-- The route `s.PathPrefix("/").Handler(...)` of the gateway mux. -/
def gatewayRoute (lib : Lib) (pfx : String) (gwmux : Request → Response) : Route Call :=
  newRoute lib (subrouterParent lib pfx) regexpType.regexpTypePrefix "/"
    (rewriteAndServe pfx Target.gateway gwmux)

/-- Whether the configuration has no template variables and only ASCII methods: no
template has a brace and every method is ASCII. -/
def Handler.modelled (h : Handler) : Bool :=
  !hasBraces h.pfx
    && (h.beforeHandles ++ h.afterHandles).all
        (fun e => !hasBraces e.Path && Strings.isASCII e.Method)

/-- Whether the configuration has no template variables: no template has a brace. -/
def Handler.literal (h : Handler) : Bool :=
  !hasBraces h.pfx && (h.beforeHandles ++ h.afterHandles).all (fun e => !hasBraces e.Path)

/-- Whether registering the routes panics: some template, compiled where it is registered,
has a variable whose pattern has capturing groups. -/
def Handler.panics (lib : Lib) (h : Handler) : Bool :=
  (addRegexpMatcher lib none h.pfx).isPanic
    || (h.beforeHandles ++ h.afterHandles).any
        (fun e => (addRegexpMatcher lib (subrouterParent lib h.pfx) e.Path).isPanic)
    || (addRegexpMatcher lib (subrouterParent lib h.pfx) "/").isPanic

/-- What a call of `newGatewayHandler` ends with. -/
inductive Built (α : Type) where
  /-- the error of the `registerHandlerFunc` is returned -/
  | failed (err : String)
  /-- registering a route panics -/
  | panicked
  /-- the router is returned -/
  | router (r : α)

/-- The method `newGatewayHandler`. -/
def Handler.newGatewayHandler (lib : Lib) (h : Handler) : Built (Router Call) :=
  match h.gwHandlerFunc h.endpoint with
  | .error err => Built.failed err
  | .ok gwmux =>
    if h.panics lib then Built.panicked
    else
      Built.router
        { pfxErr := !(addRegexpMatcher lib none h.pfx).isOk
          pfxRegexp := (addRegexpMatcher lib none h.pfx).segs
          routes := loadHandles lib h.pfx Target.before 0 h.beforeHandles
            ++ [gatewayRoute lib h.pfx gwmux]
            ++ loadHandles lib h.pfx Target.after 0 h.afterHandles }

/-- The handler `newGatewayHandler` returns, serving one request; `none` when
`newGatewayHandler` returns no router. -/
def Handler.ServeHTTP (lib : Lib) (h : Handler) (req : Request) : Option (Outcome Call) :=
  match h.newGatewayHandler lib with
  | .router r => some (r.ServeHTTP req)
  | _ => none

/-- The variable `ServerAddress` after `init`; `env` is the process environment. -/
def ServerAddress (env : String → Option String) : String :=
  let v := (env "PLUGIN_SERVER_ADDRESS").getD ""
  if v.length > 0 then v else "127.0.0.1:0"

/-- The constant `AddressFromEnvironment`. -/
def AddressFromEnvironment : String := ""

/-- The two loops of `getAddressOfServiceFromRegistry`: the address of the first node met. -/
def firstNodeAddress : List MicroRegistry.Service → Option String
  | [] => none
  | srv :: rest =>
    match srv.Nodes with
    | value :: _ => some value.Address
    | [] => firstNodeAddress rest

/-- The function `getAddressOfServiceFromRegistry`: the address and the error. -/
def getAddressOfServiceFromRegistry (reg : MicroRegistry.Registry) (serviceName : String) :
    String × Option String :=
  match reg.GetService serviceName with
  | .error _ => ("", some ("not found " ++ serviceName ++ " service"))
  | .ok services =>
    match firstNodeAddress services with
    | some address => (address, none)
    | none => ("", some ("not found nodes in " ++ serviceName ++ " service"))

/-- What the start hook does, in order. -/
inductive Event where
  /-- a call of `getAddressOfServiceFromRegistry` -/
  | lookup (serviceName : String)
  /-- a call of `time.Sleep` -/
  | sleep (seconds : Nat)
  /-- a call of `log.Fatal`: the process exits -/
  | fatal (msg : String)
  /-- a panic while the routes are registered -/
  | panic
  /-- a call of `log.Println` -/
  | println (msg : String)
  /-- the call `s.Handle(pattern, h.Handler())` -/
  | handle (pattern : String)
  /-- the goroutine that calls `s.Run()` is started -/
  | run
  deriving DecidableEq, Repr

/-- The retry loop of the start hook from round `i` on; `reg k` is the registry at the
`k`-th lookup.  The result is the events of the loop and the endpoint, or the message of
the fatal error. -/
def resolveLoop (reg : Nat → MicroRegistry.Registry) (serviceName : String) (attempts : Nat)
    (i : Nat) : List Event × Except String String :=
  match getAddressOfServiceFromRegistry (reg i) serviceName with
  | (endpoint, none) => ([Event.lookup serviceName], .ok endpoint)
  | (_, some err) =>
    if h : i ≥ attempts - 1 then
      ([Event.lookup serviceName], .error ("Server [grpc-gateway] failed: " ++ err))
    else
      let rest := resolveLoop reg serviceName attempts (i + 1)
      (Event.lookup serviceName :: Event.sleep 3 :: rest.1, rest.2)
termination_by attempts - 1 - i
decreasing_by omega

/-- The start hook after the endpoint is known. -/
def serve (lib : Lib) (h : Handler) : List Event :=
  Event.println ("Server [grpc-gateway] endpoint: " ++ h.endpoint) ::
    match h.newGatewayHandler lib with
    | .failed err => [Event.fatal err]
    | .panicked => [Event.panic]
    | .router _ => [Event.handle "/", Event.run]

/-- The function `start` of `Server`. -/
def start (lib : Lib) (reg : Nat → MicroRegistry.Registry) (h : Handler) : List Event :=
  if h.serviceName ≠ "" ∧ h.endpoint = "" then
    match resolveLoop reg h.serviceName 3 0 with
    | (events, .error msg) => events ++ [Event.fatal msg]
    | (events, .ok endpoint) => events ++ serve lib { h with endpoint := endpoint }
  else serve lib h

/-- The options `web.NewService` is called with. -/
structure WebService where
  Name : String
  Address : String
  deriving DecidableEq, Repr

/-- The function `Server`: the web service it creates; the start hook is `start`. -/
def Server (env : String → Option String) (name address : String) : WebService :=
  let address := if address = AddressFromEnvironment then ServerAddress env else address
  { Name := name, Address := address }

end GrpcGateway

/-! ## `server/http/http.go` -/

namespace HttpServer

/-- The variable `ServerAddress` after `init`; `env` is the process environment. -/
def ServerAddress (env : String → Option String) : String :=
  let v := (env "PLUGIN_SERVER_ADDRESS").getD ""
  if v.length > 0 then v else "127.0.0.1:0"

/-- The constant `AddressFromEnvironment`. -/
def AddressFromEnvironment : String := ""

/-- The function `Server`: the web service it creates. -/
def Server (env : String → Option String) (name address : String) :
    GrpcGateway.WebService :=
  let address := if address = AddressFromEnvironment then ServerAddress env else address
  { Name := name, Address := address }

end HttpServer

/-! ## Sample configurations -/

namespace Sample

open Mux GrpcGateway

/-- The meaning of the pattern `[^/]+`: one or more characters, none of them a slash. -/
def notSlashes : Regexp.Pattern :=
  fun s i j => decide (i < j) && decide (j ≤ s.length)
    && ((s.drop i).take (j - i)).all (fun c => c ≠ '/')

/-- The meaning of the pattern `[0-9]+`: one or more digits. -/
def digits : Regexp.Pattern :=
  fun s i j => decide (i < j) && decide (j ≤ s.length)
    && ((s.drop i).take (j - i)).all (fun c => c.isDigit)

/-- The libraries on the patterns and runes the samples use: the patterns `[^/]+` and
`[0-9]+` with their meaning, `([0-9]+)` with its capturing group; the samples have no rune
above ASCII and no other pattern. -/
def lib : Lib :=
  { unicodeToUpper := fun c => c
    regexpCompile := fun p =>
      if p = "[^/]+" then Regexp.Compiled.ok notSlashes
      else if p = "[0-9]+" then Regexp.Compiled.ok digits
      else if p = "([0-9]+)" then Regexp.Compiled.captures
      else Regexp.Compiled.bad }

/-- A custom handler that answers 200 with the body `ok`. -/
def okHandler : Request → Response :=
  fun _ => { status := 200, body := "ok" }

/-- A gateway mux that answers every request with the path it was given. -/
def echoMux : Request → Response :=
  fun r => { status := 200, body := r.Path }

/-- A `registerHandlerFunc` that succeeds. -/
def gwFunc : String → Except String (Request → Response) :=
  fun _ => .ok echoMux

/-- Mount prefix `/api` and the before-entry `GET /health`. -/
def health : Handler :=
  (NewHandler "/api" "127.0.0.1:9090" gwFunc).BeforeHandle "/health" "GET" okHandler

/-- Mount prefix `/api` and the before-entry `/health` registered with the method `get`. -/
def healthLower : Handler :=
  (NewHandler "/api" "127.0.0.1:9090" gwFunc).BeforeHandle "/health" "get" okHandler

/-- Mount prefix `/api` and the before-entry `GET /users/{id}`. -/
def users : Handler :=
  (NewHandler "/api" "127.0.0.1:9090" gwFunc).BeforeHandle "/users/{id}" "GET" okHandler

/-- Mount prefix `/api` and the after-entry `GET /users/{id:[0-9]+}`. -/
def usersAfter : Handler :=
  (NewHandler "/api" "127.0.0.1:9090" gwFunc).AfterHandle "/users/{id:[0-9]+}" "GET" okHandler

/-- Mount prefix `/api` without entries. -/
def bare : Handler :=
  NewHandler "/api" "127.0.0.1:9090" gwFunc

/-- Mount prefix `/api` and the after-entry `GET /a//b`. -/
def afterDouble : Handler :=
  (NewHandler "/api" "127.0.0.1:9090" gwFunc).AfterHandle "/a//b" "GET" okHandler

/-- Mount prefix `/api//` and the after-entry `GET /x`. -/
def afterSlashes : Handler :=
  (NewHandler "/api//" "127.0.0.1:9090" gwFunc).AfterHandle "/x" "GET" okHandler

/-- Mount prefix `/api/` and the before-entry `GET /health`. -/
def healthSlash : Handler :=
  (NewHandler "/api/" "127.0.0.1:9090" gwFunc).BeforeHandle "/health" "GET" okHandler

/-- Mount prefix `/api` and the after-entry `GET /late`. -/
def afterLate : Handler :=
  (NewHandler "/api" "127.0.0.1:9090" gwFunc).AfterHandle "/late" "GET" okHandler

/-- Mount prefix `/api` and an after-entry `GET` with the empty path. -/
def afterRoot : Handler :=
  (NewHandler "/api" "127.0.0.1:9090" gwFunc).AfterHandle "" "GET" okHandler

/-- A registry without the service. -/
def regDown : MicroRegistry.Registry :=
  { GetService := fun _ => .error "service not found" }

/-- Two records of the service `greeter`, the first one without nodes. -/
def recordsUp : List MicroRegistry.Service :=
  [{ Name := "greeter", Version := "1", Nodes := [] },
   { Name := "greeter", Version := "2", Nodes := [{ Id := "n1", Address := "10.0.0.1:80" },
                                                  { Id := "n2", Address := "10.0.0.2:80" }] }]

/-- The same first record, followed by a record with another node. -/
def recordsUpOther : List MicroRegistry.Service :=
  [{ Name := "greeter", Version := "1", Nodes := [] },
   { Name := "greeter", Version := "2", Nodes := [{ Id := "n3", Address := "10.0.0.3:80" }] }]

/-- A registry that answers with `recordsUp`. -/
def regUp : MicroRegistry.Registry :=
  { GetService := fun _ => .ok recordsUp }

/-- A registry that answers without an error and without records. -/
def regNoRecords : MicroRegistry.Registry :=
  { GetService := fun _ => .ok [] }

/-- A registry whose only node has the empty address. -/
def regBlank : MicroRegistry.Registry :=
  { GetService := fun _ => .ok
      [{ Name := "greeter", Version := "1", Nodes := [{ Id := "n1", Address := "" }] }] }

/-- A registry that answers with one record without nodes. -/
def regEmpty : MicroRegistry.Registry :=
  { GetService := fun _ => .ok [{ Name := "greeter", Version := "1", Nodes := [] }] }

/-- A registry that answers with `recordsUpOther`. -/
def regUpOther : MicroRegistry.Registry :=
  { GetService := fun _ => .ok recordsUpOther }

/-- An environment that sets `PLUGIN_SERVER_ADDRESS`. -/
def envSet : String → Option String :=
  fun k => if k = "PLUGIN_SERVER_ADDRESS" then some "0.0.0.0:8080" else none

/-- An environment without variables. -/
def envEmpty : String → Option String :=
  fun _ => none

/-- A handler that is to resolve the service `greeter`. -/
def byName : Handler :=
  NewHandlerWithServiceName "/api" "greeter" gwFunc

end Sample
/-! ## Facts about `strings.Replace` -/

namespace Strings

theorem isPrefixOf_append_self (p r : List Char) : p.isPrefixOf (p ++ r) = true := by
  induction p with
  | nil => cases r <;> rfl
  | cons c t ih => simp [List.isPrefixOf, ih]

theorem eq_append_of_isPrefixOf :
    ∀ (p s : List Char), p.isPrefixOf s = true → s = p ++ s.drop p.length := by
  intro p
  induction p with
  | nil => intro s _; simp
  | cons a p ih =>
    intro s h
    cases s with
    | nil => simp [List.isPrefixOf] at h
    | cons b s =>
      simp only [List.isPrefixOf, Bool.and_eq_true, beq_iff_eq] at h
      obtain ⟨hab, hp⟩ := h
      have := ih s hp
      simp only [hab, List.length_cons, List.drop_succ_cons, List.cons_append]
      exact congrArg (List.cons b) this

theorem indexList_append_self (p r : List Char) : indexList p (p ++ r) = some 0 := by
  have h := isPrefixOf_append_self p r
  cases hs : p ++ r with
  | nil => rw [hs] at h; simp [indexList, h]
  | cons c t => rw [hs] at h; simp [indexList, h]

theorem indexList_nil (s : List Char) : indexList [] s = some 0 := by
  simpa using indexList_append_self [] s

theorem indexList_split (old : List Char) :
    ∀ (s : List Char) (i : Nat), indexList old s = some i →
      s = s.take i ++ old ++ s.drop (i + old.length) := by
  intro s
  induction s with
  | nil =>
    intro i h
    by_cases hp : old.isPrefixOf [] = true
    · have := eq_append_of_isPrefixOf old [] hp
      simp at this
      simp [this]
    · simp [indexList, hp] at h
  | cons c t ih =>
    intro i h
    by_cases hp : old.isPrefixOf (c :: t) = true
    · simp [indexList, hp] at h
      subst h
      have := eq_append_of_isPrefixOf old (c :: t) hp
      simpa using this
    · simp [indexList, hp] at h
      obtain ⟨a, ha, rfl⟩ := h
      have := ih a ha
      have e : a + 1 + old.length = (a + old.length) + 1 := by omega
      rw [e]
      simp only [List.take_succ_cons, List.drop_succ_cons, List.cons_append]
      exact congrArg (List.cons c) this

theorem countList_ne_zero (s old : List Char) (i : Nat) (h : indexList old s = some i) :
    countList s old ≠ 0 := by
  unfold countList
  split
  · omega
  · simp [countLoop, h]

/-- Removing one occurrence: everything before and after the first occurrence is kept. -/
theorem replaceList_one (s old : List Char) (i : Nat) (hold : old ≠ [])
    (h : indexList old s = some i) :
    replaceList s old [] 1 = s.take i ++ s.drop (i + old.length) := by
  have hc := countList_ne_zero s old i h
  have hc1 : ¬ ((countList s old : Int) < 1) := by omega
  simp [replaceList, hold, hc, hc1, replaceLoop, h]

/-- Without an occurrence the string is returned as it is. -/
theorem replaceList_none (s old new : List Char) (n : Int) (h : indexList old s = none) :
    replaceList s old new n = s := by
  have hold : old ≠ [] := by
    intro e
    rw [e, indexList_nil] at h
    cases h
  unfold replaceList
  split
  · rfl
  · simp [countList, hold, countLoop, h]

theorem replaceList_append_self (p r : List Char) : replaceList (p ++ r) p [] 1 = r := by
  by_cases hp : p = []
  · simp [replaceList, hp]
  · rw [replaceList_one (p ++ r) p 0 hp (indexList_append_self p r)]
    simp

theorem Replace_append_self (p r : String) : Replace (p ++ r) p "" 1 = r := by
  unfold Replace
  simp [String.data_append, replaceList_append_self]

end Strings

/-! ## Facts about the router -/

namespace Mux

theorem Clean_rooted (p : String) (h : p.data.head? = some '/') :
    (Path.Clean p).data.head? = some '/' := by
  unfold Path.Clean
  simp [h]

theorem cleanPath_rooted (p : String) : (cleanPath p).data.head? = some '/' := by
  unfold cleanPath
  split
  · rfl
  · have hp1 : (if p.data.head? = some '/' then p else "/" ++ p).data.head? = some '/' := by
      split
      · assumption
      · simp [String.data_append]
    revert hp1
    generalize (if p.data.head? = some '/' then p else "/" ++ p) = p1
    intro hp1
    have hnp := Clean_rooted p1 hp1
    dsimp only
    split
    · simp only [String.data_append]
      cases hd : (Path.Clean p1).data with
      | nil => rw [hd] at hnp; cases hnp
      | cons a l => rw [hd] at hnp; simpa using hnp
    · exact hnp

theorem cleanPath_head (p : String) (h : cleanPath p = p) : p.data.head? = some '/' := by
  have := cleanPath_rooted p
  rwa [h] at this

end Mux

/-! ## Facts about templates and their regular expressions -/

namespace Mux

theorem braceScan_zero_acc (acc : List Char) (l : List Char) :
    braceScan 0 acc l = braceScan 0 [] l := by
  cases l <;> rfl

theorem braceScan_zero_open (acc t : List Char) :
    braceScan 0 acc ('\x7b' :: t) = braceScan 1 [] t := by
  simp [braceScan]

theorem braceScan_zero_close (acc t : List Char) :
    braceScan 0 acc ('\x7d' :: t) = none := by
  simp [braceScan]

theorem braceScan_zero_chr (acc t : List Char) (c : Char) (h1 : c ≠ '\x7b') (h2 : c ≠ '\x7d') :
    braceScan 0 acc (c :: t) = (braceScan 0 [] t).map (fun r => rawSegment.chr c :: r) := by
  simp [braceScan, h1, h2]

theorem braceScan_succ_open (n : Nat) (acc t : List Char) :
    braceScan (n + 1) acc ('\x7b' :: t) = braceScan (n + 2) ('\x7b' :: acc) t := by
  simp [braceScan]

theorem braceScan_one_close (acc t : List Char) :
    braceScan 1 acc ('\x7d' :: t)
      = (braceScan 0 [] t).map (fun r => rawSegment.var acc.reverse :: r) := by
  simp [braceScan]

theorem braceScan_succ_close (m : Nat) (acc t : List Char) :
    braceScan (m + 2) acc ('\x7d' :: t) = braceScan (m + 1) ('\x7d' :: acc) t := by
  simp [braceScan]

theorem braceScan_succ_chr (n : Nat) (acc t : List Char) (c : Char)
    (h1 : c ≠ '\x7b') (h2 : c ≠ '\x7d') :
    braceScan (n + 1) acc (c :: t) = braceScan (n + 1) (c :: acc) t := by
  simp [braceScan, h1, h2]

theorem braceScan_literal :
    ∀ l : List Char, l.any (fun c => c = '\x7b' || c = '\x7d') = false →
      braceScan 0 [] l = some (l.map rawSegment.chr) := by
  intro l
  induction l with
  | nil => intro _; rfl
  | cons c t ih =>
    intro h
    simp only [List.any_cons, Bool.or_eq_false_iff, decide_eq_false_iff_not] at h
    obtain ⟨⟨h1, h2⟩, ht⟩ := h
    rw [braceScan_zero_chr [] t c h1 h2, ih ht]
    rfl

theorem braceScan_literal_succ :
    ∀ (l : List Char) (n : Nat) (acc : List Char),
      l.any (fun c => c = '\x7b' || c = '\x7d') = false → braceScan (n + 1) acc l = none := by
  intro l
  induction l with
  | nil => intro n acc _; rfl
  | cons c t ih =>
    intro n acc h
    simp only [List.any_cons, Bool.or_eq_false_iff, decide_eq_false_iff_not] at h
    obtain ⟨⟨h1, h2⟩, ht⟩ := h
    rw [braceScan_succ_chr n acc t c h1 h2]
    exact ih n (c :: acc) ht

theorem braceScan_append :
    ∀ (a : List Char) (lvl : Nat) (acc : List Char) (sa : List rawSegment) (b : List Char),
      braceScan lvl acc a = some sa →
      braceScan lvl acc (a ++ b) = (braceScan 0 [] b).map (fun r => sa ++ r) := by
  intro a
  induction a with
  | nil =>
    intro lvl acc sa b h
    cases lvl with
    | zero =>
      simp only [braceScan, Option.some.injEq] at h
      subst h
      simp [braceScan_zero_acc acc b]
    | succ n => simp [braceScan] at h
  | cons c t ih =>
    intro lvl acc sa b h
    rw [List.cons_append]
    by_cases h1 : c = '\x7b'
    · subst h1
      cases lvl with
      | zero =>
        rw [braceScan_zero_open] at h ⊢
        exact ih 1 [] sa b h
      | succ n =>
        rw [braceScan_succ_open] at h ⊢
        exact ih (n + 2) _ sa b h
    · by_cases h2 : c = '\x7d'
      · subst h2
        cases lvl with
        | zero => rw [braceScan_zero_close] at h; cases h
        | succ n =>
          cases n with
          | zero =>
            rw [braceScan_one_close] at h ⊢
            cases hs : braceScan 0 [] t with
            | none => rw [hs] at h; cases h
            | some st =>
              rw [hs] at h
              simp only [Option.map_some', Option.some.injEq] at h
              subst h
              rw [ih 0 [] st b hs]
              cases braceScan 0 [] b <;> simp
          | succ m =>
            rw [braceScan_succ_close] at h ⊢
            exact ih (m + 1) _ sa b h
      · cases lvl with
        | zero =>
          rw [braceScan_zero_chr acc _ c h1 h2] at h ⊢
          cases hs : braceScan 0 [] t with
          | none => rw [hs] at h; cases h
          | some st =>
            rw [hs] at h
            simp only [Option.map_some', Option.some.injEq] at h
            subst h
            rw [ih 0 [] st b hs]
            cases braceScan 0 [] b <;> simp
        | succ n =>
          rw [braceScan_succ_chr n acc _ c h1 h2] at h ⊢
          exact ih (n + 1) _ sa b h

theorem braceScan_suffix (b : List Char)
    (hb : b.any (fun c => c = '\x7b' || c = '\x7d') = false) :
    ∀ (a : List Char) (lvl : Nat) (acc : List Char) (s : List rawSegment),
      braceScan lvl acc (a ++ b) = some s →
      ∃ sa, braceScan lvl acc a = some sa ∧ s = sa ++ b.map rawSegment.chr := by
  intro a
  induction a with
  | nil =>
    intro lvl acc s h
    cases lvl with
    | zero =>
      rw [List.nil_append, braceScan_zero_acc, braceScan_literal b hb] at h
      exact ⟨[], rfl, by simpa using h.symm⟩
    | succ n =>
      rw [List.nil_append, braceScan_literal_succ b n acc hb] at h
      cases h
  | cons c t ih =>
    intro lvl acc s h
    rw [List.cons_append] at h
    by_cases h1 : c = '\x7b'
    · subst h1
      cases lvl with
      | zero =>
        rw [braceScan_zero_open] at h ⊢
        exact ih 1 [] s h
      | succ n =>
        rw [braceScan_succ_open] at h ⊢
        exact ih (n + 2) _ s h
    · by_cases h2 : c = '\x7d'
      · subst h2
        cases lvl with
        | zero => rw [braceScan_zero_close] at h; cases h
        | succ n =>
          cases n with
          | zero =>
            rw [braceScan_one_close] at h ⊢
            cases hs : braceScan 0 [] (t ++ b) with
            | none => rw [hs] at h; cases h
            | some st =>
              rw [hs] at h
              simp only [Option.map_some', Option.some.injEq] at h
              obtain ⟨sa, hsa, hst⟩ := ih 0 [] st hs
              refine ⟨rawSegment.var acc.reverse :: sa, by simp [hsa], ?_⟩
              rw [← h, hst]
              rfl
          | succ m =>
            rw [braceScan_succ_close] at h ⊢
            exact ih (m + 1) _ s h
      · cases lvl with
        | zero =>
          rw [braceScan_zero_chr acc _ c h1 h2] at h ⊢
          cases hs : braceScan 0 [] (t ++ b) with
          | none => rw [hs] at h; cases h
          | some st =>
            rw [hs] at h
            simp only [Option.map_some', Option.some.injEq] at h
            obtain ⟨sa, hsa, hst⟩ := ih 0 [] st hs
            refine ⟨rawSegment.chr c :: sa, by simp [hsa], ?_⟩
            rw [← h, hst]
            rfl
        | succ n =>
          rw [braceScan_succ_chr n acc _ c h1 h2] at h ⊢
          exact ih (n + 1) _ s h

end Mux

namespace Mux

open Strings

theorem matchFrom_le (exact : Bool) :
    ∀ (segs : List segment) (s : List Char) (i : Nat),
      matchFrom exact segs s i = true → i ≤ s.length := by
  intro segs
  induction segs with
  | nil =>
    intro s i h
    cases exact
    · simpa [matchFrom] using h
    · simp only [matchFrom, if_true, beq_iff_eq] at h
      omega
  | cons seg rest ih =>
    intro s i h
    cases seg with
    | chr c =>
      simp only [matchFrom, Bool.and_eq_true] at h
      have := ih s (i + 1) h.2
      omega
    | group p =>
      simp only [matchFrom, List.any_eq_true, Bool.and_eq_true, decide_eq_true_eq] at h
      obtain ⟨j, -, ⟨hij, -⟩, hm⟩ := h
      have := ih s j hm
      omega

/-- A route whose regular expression begins with the pieces of a prefix route matches only
paths the prefix route matches. -/
theorem matchFrom_shadow :
    ∀ (x y : List segment) (s : List Char) (i : Nat),
      matchFrom true (x ++ y) s i = true → matchFrom false x s i = true := by
  intro x
  induction x with
  | nil =>
    intro y s i h
    have := matchFrom_le true y s i h
    simp [matchFrom, this]
  | cons seg rest ih =>
    intro y s i h
    cases seg with
    | chr c =>
      simp only [List.cons_append, matchFrom, Bool.and_eq_true] at h ⊢
      exact ⟨h.1, ih y s (i + 1) h.2⟩
    | group p =>
      simp only [List.cons_append, matchFrom, List.any_eq_true, Bool.and_eq_true] at h ⊢
      obtain ⟨j, hj, hp, hm⟩ := h
      exact ⟨j, hj, hp, ih y s j hm⟩

theorem get?_eq_head?_drop (s : List Char) (i : Nat) : s.get? i = (s.drop i).head? := by
  induction s generalizing i with
  | nil => simp
  | cons a t ih =>
    cases i with
    | zero => rfl
    | succ k => exact ih k

theorem drop_succ_eq_tail_drop (s : List Char) (i : Nat) : s.drop (i + 1) = (s.drop i).tail := by
  induction s generalizing i with
  | nil => simp
  | cons a t ih =>
    cases i with
    | zero => rfl
    | succ k => exact ih k

/-- The regular expression of literal text matches the text itself. -/
theorem matchFrom_literal (exact : Bool) :
    ∀ (l s : List Char) (i : Nat), i ≤ s.length →
      matchFrom exact (l.map segment.chr) s i
        = (l.isPrefixOf (s.drop i) && (!exact || i + l.length == s.length)) := by
  intro l
  induction l with
  | nil =>
    intro s i hi
    cases exact <;> simp [matchFrom, hi]
  | cons c l ih =>
    intro s i hi
    simp only [List.map_cons, matchFrom, get?_eq_head?_drop]
    cases hd : s.drop i with
    | nil =>
      simp [List.isPrefixOf]
    | cons x rest =>
      have hlt : i < s.length := by
        by_contra hge
        have : s.drop i = [] := List.drop_eq_nil_of_le (by omega)
        rw [this] at hd
        cases hd
      have hrest : s.drop (i + 1) = rest := by rw [drop_succ_eq_tail_drop, hd]; rfl
      rw [ih s (i + 1) (by omega), hrest]
      have e1 : i + 1 + l.length = i + (l.length + 1) := by omega
      simp only [List.head?_cons, List.isPrefixOf, List.length_cons, e1]
      by_cases hxc : x = c
      · subst hxc; simp
      · have hcx : ¬ c = x := fun h => hxc h.symm
        have b1 : (some x == some c) = false := by simpa using hxc
        have b2 : (c == x) = false := by simpa using hcx
        rw [b1, b2]
        rfl

theorem eq_of_isPrefixOf_length (l s : List Char) (h : l.isPrefixOf s = true)
    (hl : l.length = s.length) : s = l := by
  have := eq_append_of_isPrefixOf l s h
  have hz : (s.drop l.length) = [] := List.drop_eq_nil_of_le (by omega)
  rw [hz, List.append_nil] at this
  exact this

theorem matchFrom_literal_exact (l : List Char) (path : String) :
    matchFrom true (l.map segment.chr) path.data 0 = true ↔ path.data = l := by
  rw [matchFrom_literal true l path.data 0 (Nat.zero_le _)]
  simp only [List.drop_zero, Bool.not_true, Bool.false_or, Nat.zero_add, Bool.and_eq_true,
    beq_iff_eq]
  constructor
  · rintro ⟨h1, h2⟩
    exact eq_of_isPrefixOf_length l path.data h1 h2
  · intro h
    rw [h]
    refine ⟨?_, rfl⟩
    have := isPrefixOf_append_self l []
    rwa [List.append_nil] at this

theorem matchFrom_literal_pfx (l : List Char) (path : String) :
    matchFrom false (l.map segment.chr) path.data 0 = l.isPrefixOf path.data := by
  rw [matchFrom_literal false l path.data 0 (Nat.zero_le _)]
  simp

theorem newRouteRegexp_literal (lib : Lib) (tpl : String) (h : hasBraces tpl = false) :
    newRouteRegexp lib tpl = regexpResult.ok (tpl.data.map segment.chr) := by
  unfold hasBraces at h
  unfold newRouteRegexp
  rw [braceScan_literal tpl.data h]
  have hb : (tpl.data.map rawSegment.chr).any (rawSegment.isBad lib) = false := by
    simp [List.any_eq_false, rawSegment.isBad]
  have hc : (tpl.data.map rawSegment.chr).any (rawSegment.hasCaptures lib) = false := by
    simp [List.any_eq_false, rawSegment.hasCaptures]
  simp only [hb, hc, Bool.false_eq_true, if_false, List.map_map]
  congr 1

theorem TrimRight_split (s cutset : String) :
    ∃ tail : List Char, s.data = (TrimRight s cutset).data ++ tail
      ∧ ∀ c ∈ tail, cutset.data.contains c = true := by
  refine ⟨(s.data.reverse.takeWhile (fun c => cutset.data.contains c)).reverse, ?_, ?_⟩
  · unfold TrimRight
    simp only
    rw [← List.reverse_append, List.takeWhile_append_dropWhile, List.reverse_reverse]
  · intro c hc
    rw [List.mem_reverse] at hc
    exact (List.mem_takeWhile_imp hc)

theorem hasBraces_TrimRight (s cutset : String) (h : hasBraces s = false) :
    hasBraces (TrimRight s cutset) = false := by
  obtain ⟨tail, hs, -⟩ := TrimRight_split s cutset
  unfold hasBraces at h ⊢
  rw [hs, List.any_append, Bool.or_eq_false_iff] at h
  exact h.1

theorem hasBraces_append (a b : String) (ha : hasBraces a = false) (hb : hasBraces b = false) :
    hasBraces (a ++ b) = false := by
  unfold hasBraces at *
  rw [String.data_append, List.any_append, ha, hb]
  rfl

end Mux

namespace Mux

open Strings

theorem newRouteRegexp_isOk (lib : Lib) (tpl : String) (h : (newRouteRegexp lib tpl).isOk = true) :
    ∃ raws, braceScan 0 [] tpl.data = some raws
      ∧ raws.any (rawSegment.isBad lib) = false
      ∧ raws.any (rawSegment.hasCaptures lib) = false
      ∧ newRouteRegexp lib tpl = regexpResult.ok (raws.map (segmentOf lib)) := by
  unfold newRouteRegexp at h ⊢
  cases hs : braceScan 0 [] tpl.data with
  | none => rw [hs] at h; cases h
  | some raws =>
    rw [hs] at h
    simp only at h ⊢
    cases hb : raws.any (rawSegment.isBad lib) with
    | true => rw [hb] at h; cases h
    | false =>
      rw [hb] at h
      cases hc : raws.any (rawSegment.hasCaptures lib) with
      | true => rw [hc] at h; cases h
      | false => exact ⟨raws, rfl, hb, hc, by simp⟩

theorem newRouteRegexp_of_scan (lib : Lib) (tpl : String) (raws : List rawSegment)
    (hs : braceScan 0 [] tpl.data = some raws)
    (hb : raws.any (rawSegment.isBad lib) = false)
    (hc : raws.any (rawSegment.hasCaptures lib) = false) :
    newRouteRegexp lib tpl = regexpResult.ok (raws.map (segmentOf lib)) := by
  unfold newRouteRegexp
  rw [hs]
  simp [hb, hc]

/-- Under a prefix whose template compiles, the template of a path that begins with a slash
compiles to the regular expression of the catch-all followed by more pieces. -/
theorem shadow_regexp (lib : Lib) (pfx p : String)
    (hok : (newRouteRegexp lib pfx).isOk = true)
    (hslash : p.data.head? = some '/')
    (hp : (newRouteRegexp lib (TrimRight pfx "/" ++ p)).isOk = true) :
    ∃ segsG rest,
      newRouteRegexp lib (TrimRight pfx "/" ++ "/") = regexpResult.ok segsG
      ∧ newRouteRegexp lib (TrimRight pfx "/" ++ p) = regexpResult.ok (segsG ++ rest) := by
  obtain ⟨raws, hs, hb, hc, -⟩ := newRouteRegexp_isOk lib pfx hok
  obtain ⟨tail, hsplit, htail⟩ := TrimRight_split pfx "/"
  have htb : tail.any (fun c => c = '\x7b' || c = '\x7d') = false := by
    rw [List.any_eq_false]
    intro c hc
    have h1 := htail c hc
    have h2 : c = '/' := by simpa using h1
    subst h2
    decide
  rw [hsplit] at hs
  obtain ⟨raws1, hs1, hr⟩ := braceScan_suffix tail htb _ 0 [] raws hs
  rw [hr, List.any_append, Bool.or_eq_false_iff] at hb hc
  have hsG : braceScan 0 [] (TrimRight pfx "/" ++ "/").data
      = some (raws1 ++ [rawSegment.chr '/']) := by
    rw [String.data_append, braceScan_append _ 0 [] raws1 _ hs1]
    rfl
  obtain ⟨rawsA, hsA, hbA, hcA, hA⟩ := newRouteRegexp_isOk lib _ hp
  cases hd : p.data with
  | nil => rw [hd] at hslash; cases hslash
  | cons c rest =>
    rw [hd] at hslash
    simp only [List.head?_cons, Option.some.injEq] at hslash
    subst hslash
    rw [String.data_append, hd, braceScan_append _ 0 [] raws1 _ hs1,
      braceScan_zero_chr [] rest '/' (by decide) (by decide)] at hsA
    cases hrest : braceScan 0 [] rest with
    | none => rw [hrest] at hsA; cases hsA
    | some rp =>
      rw [hrest] at hsA
      simp only [Option.map_some', Option.some.injEq] at hsA
      refine ⟨(raws1 ++ [rawSegment.chr '/']).map (segmentOf lib), rp.map (segmentOf lib), ?_, ?_⟩
      · apply newRouteRegexp_of_scan lib _ _ hsG
        · rw [List.any_append, hb.1]; rfl
        · rw [List.any_append, hc.1]; rfl
      · rw [hA, ← hsA]
        simp

end Mux

/-! ## Facts about the routes of the gateway router -/

namespace GrpcGateway

open Mux Strings

theorem subrouterParent_ok (lib : Lib) (pfx : String)
    (h : (addRegexpMatcher lib none pfx).isOk = true) : subrouterParent lib pfx = some pfx := by
  simp [subrouterParent, h]

theorem addRegexpMatcher_none_isOk (lib : Lib) (pfx : String)
    (h : (addRegexpMatcher lib none pfx).isOk = true) :
    (pfx = "" ∨ pfx.data.head? = some '/') ∧ addRegexpMatcher lib none pfx = newRouteRegexp lib pfx := by
  unfold addRegexpMatcher at h ⊢
  split at h
  · cases h
  · next hv =>
    refine ⟨?_, by simp [hv]⟩
    by_cases h1 : pfx = ""
    · exact Or.inl h1
    · right
      by_contra h2
      exact hv ⟨h1, h2⟩

theorem addRegexpMatcher_some (lib : Lib) (pfx p : String) :
    addRegexpMatcher lib (some pfx) p
      = if p = "" ∨ p.data.head? = some '/' then newRouteRegexp lib (TrimRight pfx "/" ++ p)
        else regexpResult.err := by
  unfold addRegexpMatcher
  by_cases h1 : p = ""
  · simp [h1]
  · by_cases h2 : p.data.head? = some '/'
    · simp [h1, h2]
    · simp [h1, h2]

theorem handleRoute_handler (lib : Lib) (pfx : String) (t : Target) (e : handle) (req : Request) :
    (handleRoute lib pfx t e).handler req = rewriteAndServe pfx t e.HandleFunc req := rfl

theorem handleRoute_Match_target (lib : Lib) (pfx : String) (t t2 : Target) (e : handle)
    (req : Request) :
    (handleRoute lib pfx t e).Match req = (handleRoute lib pfx t2 e).Match req := rfl

/-- What a matching route of an entry tells, whatever its template. -/
theorem handleRoute_Match_general (lib : Lib) (pfx : String) (t : Target) (e : handle)
    (req : Request) (hpar : subrouterParent lib pfx = some pfx)
    (h : (handleRoute lib pfx t e).Match req = true) :
    (e.Path = "" ∨ e.Path.data.head? = some '/')
      ∧ (newRouteRegexp lib (TrimRight pfx "/" ++ e.Path)).isOk = true
      ∧ matchFrom true (newRouteRegexp lib (TrimRight pfx "/" ++ e.Path)).segs req.Path.data 0 = true
      ∧ req.Method = ToUpperWith lib.unicodeToUpper e.Method := by
  simp only [handleRoute, Route.Methods, newRoute, Route.Match, Route.pathMatch,
    Route.methodMatch, hpar, addRegexpMatcher_some, Bool.and_eq_true, Bool.not_eq_true',
    Bool.not_eq_false', List.contains_cons, List.contains_nil, Bool.or_false, beq_iff_eq] at h
  obtain ⟨⟨h1, h2⟩, h3⟩ := h
  by_cases hv : e.Path = "" ∨ e.Path.data.head? = some '/'
  · rw [if_pos hv] at h1 h2
    exact ⟨hv, h1, h2, h3⟩
  · rw [if_neg hv] at h1
    cases h1

/-- The route of an entry whose template has no variables matches a request exactly when
the path is the prefix, trailing slashes dropped, followed by the entry's path, and the
method is the entry's method in upper case. -/
theorem handleRoute_Match (lib : Lib) (pfx : String) (t : Target) (e : handle) (req : Request)
    (hpar : subrouterParent lib pfx = some pfx)
    (hb : hasBraces pfx = false) (hbe : hasBraces e.Path = false) :
    (handleRoute lib pfx t e).Match req = true ↔
      (e.Path = "" ∨ e.Path.data.head? = some '/')
        ∧ req.Path = TrimRight pfx "/" ++ e.Path
        ∧ req.Method = ToUpperWith lib.unicodeToUpper e.Method := by
  have hlit := newRouteRegexp_literal lib (TrimRight pfx "/" ++ e.Path)
    (hasBraces_append _ _ (hasBraces_TrimRight _ _ hb) hbe)
  constructor
  · intro h
    obtain ⟨hv, -, hm, hmeth⟩ := handleRoute_Match_general lib pfx t e req hpar h
    rw [hlit] at hm
    exact ⟨hv, String.ext ((matchFrom_literal_exact _ _).mp hm), hmeth⟩
  · rintro ⟨hv, hpath, hmeth⟩
    have hm : matchFrom true ((TrimRight pfx "/" ++ e.Path).data.map segment.chr) req.Path.data 0
        = true := (matchFrom_literal_exact _ _).mpr (by rw [hpath])
    simp only [handleRoute, Route.Methods, newRoute, Route.Match, Route.pathMatch,
      Route.methodMatch, hpar, addRegexpMatcher_some, if_pos hv, hlit, regexpResult.isOk,
      regexpResult.segs, hm, hmeth, Bool.not_true, Bool.not_false, Bool.true_and,
      List.contains_cons, List.contains_nil, Bool.or_false, beq_self_eq_true]

theorem gatewayRoute_Match_general (lib : Lib) (pfx : String) (gwmux : Request → Response)
    (req : Request) (hpar : subrouterParent lib pfx = some pfx) :
    (gatewayRoute lib pfx gwmux).Match req
      = ((newRouteRegexp lib (TrimRight pfx "/" ++ "/")).isOk
        && matchFrom false (newRouteRegexp lib (TrimRight pfx "/" ++ "/")).segs req.Path.data 0) := by
  have hv : ("/" : String) = "" ∨ ("/" : String).data.head? = some '/' := Or.inr rfl
  simp only [gatewayRoute, newRoute, Route.Match, Route.pathMatch, Route.methodMatch, hpar,
    addRegexpMatcher_some, if_pos hv, Bool.not_not, Bool.and_true]

theorem gatewayRoute_Match (lib : Lib) (pfx : String) (gwmux : Request → Response)
    (req : Request) (hpar : subrouterParent lib pfx = some pfx) (hb : hasBraces pfx = false) :
    (gatewayRoute lib pfx gwmux).Match req = HasPrefix req.Path (TrimRight pfx "/" ++ "/") := by
  have hlit := newRouteRegexp_literal lib (TrimRight pfx "/" ++ "/")
    (hasBraces_append _ _ (hasBraces_TrimRight _ _ hb) (by decide))
  rw [gatewayRoute_Match_general lib pfx gwmux req hpar, hlit]
  simp only [regexpResult.isOk, regexpResult.segs, Bool.true_and, matchFrom_literal_pfx]
  rfl

/-- The catch-all matches every request that the route of an entry whose path begins with
a slash matches. -/
theorem gatewayRoute_shadows (lib : Lib) (pfx : String) (gwmux : Request → Response)
    (t : Target) (e : handle) (req : Request)
    (hok : (addRegexpMatcher lib none pfx).isOk = true)
    (hslash : e.Path.data.head? = some '/')
    (h : (handleRoute lib pfx t e).Match req = true) :
    (gatewayRoute lib pfx gwmux).Match req = true := by
  have hpar := subrouterParent_ok lib pfx hok
  obtain ⟨-, hnone⟩ := addRegexpMatcher_none_isOk lib pfx hok
  rw [hnone] at hok
  obtain ⟨-, hpok, hm, -⟩ := handleRoute_Match_general lib pfx t e req hpar h
  obtain ⟨segsG, rest, hG, hA⟩ := shadow_regexp lib pfx e.Path hok hslash hpok
  rw [hA] at hm
  rw [gatewayRoute_Match_general lib pfx gwmux req hpar, hG]
  simp only [regexpResult.isOk, regexpResult.segs, Bool.true_and]
  exact matchFrom_shadow segsG rest _ 0 hm

theorem loadHandles_append (lib : Lib) (pfx : String) (mk : Nat → Target) :
    ∀ (a b : List handle) (i : Nat),
      loadHandles lib pfx mk i (a ++ b)
        = loadHandles lib pfx mk i a ++ loadHandles lib pfx mk (i + a.length) b := by
  intro a
  induction a with
  | nil => intro b i; simp [loadHandles]
  | cons x a ih =>
    intro b i
    have e1 : i + 1 + a.length = i + (a.length + 1) := by omega
    show handleRoute lib pfx (mk i) x :: loadHandles lib pfx mk (i + 1) (a ++ b) = _
    rw [ih b (i + 1), e1]
    rfl

theorem find_loadHandles_none (lib : Lib) (pfx : String) (mk : Nat → Target) (req : Request) :
    ∀ (bs : List handle) (i : Nat),
      (∀ x ∈ bs, (handleRoute lib pfx Target.gateway x).Match req = false) →
      (loadHandles lib pfx mk i bs).find? (fun rt => rt.Match req) = none := by
  intro bs
  induction bs with
  | nil => intro i _; rfl
  | cons x bs ih =>
    intro i h
    have hx := h x (List.mem_cons_self _ _)
    rw [handleRoute_Match_target lib pfx Target.gateway (mk i) x req] at hx
    simp only [loadHandles, List.find?_cons, hx]
    exact ih (i + 1) (fun y hy => h y (List.mem_cons_of_mem _ hy))

theorem find_loadHandles_some (lib : Lib) (pfx : String) (mk : Nat → Target) (req : Request) :
    ∀ (bs : List handle) (i : Nat) (rt : Route Call),
      (loadHandles lib pfx mk i bs).find? (fun rt => rt.Match req) = some rt →
      ∃ k e, bs[k]? = some e ∧ rt = handleRoute lib pfx (mk (i + k)) e
        ∧ (handleRoute lib pfx Target.gateway e).Match req = true := by
  intro bs
  induction bs with
  | nil => intro i rt h; simp [loadHandles] at h
  | cons x bs ih =>
    intro i rt h
    simp only [loadHandles, List.find?_cons] at h
    cases hx : (handleRoute lib pfx (mk i) x).Match req with
    | true =>
      rw [hx] at h
      simp only [Option.some.injEq] at h
      exact ⟨0, x, by simp, h.symm, by
        rw [handleRoute_Match_target lib pfx Target.gateway (mk i) x req]; exact hx⟩
    | false =>
      rw [hx] at h
      obtain ⟨k, e, hk, hrt, hm⟩ := ih (i + 1) rt h
      refine ⟨k + 1, e, by simpa using hk, ?_, hm⟩
      rw [hrt]
      have : i + 1 + k = i + (k + 1) := by omega
      rw [this]

end GrpcGateway

namespace GrpcGateway

open Mux Strings

theorem valid_of_HasPrefix (path pfx : String) (hp : HasPrefix path pfx = true)
    (hroot : path.data.head? = some '/') : pfx = "" ∨ pfx.data.head? = some '/' := by
  unfold HasPrefix at hp
  cases hd : pfx.data with
  | nil => left; exact String.ext hd
  | cons c l =>
    right
    rw [hd] at hp
    cases hq : path.data with
    | nil => rw [hq] at hroot; cases hroot
    | cons b k =>
      rw [hq] at hp hroot
      simp only [List.isPrefixOf, Bool.and_eq_true, beq_iff_eq] at hp
      simp only [List.head?_cons, Option.some.injEq] at hroot
      simp [hp.1, hroot]

theorem addRegexpMatcher_none_literal (lib : Lib) (pfx : String)
    (hv : pfx = "" ∨ pfx.data.head? = some '/') (hb : hasBraces pfx = false) :
    addRegexpMatcher lib none pfx = regexpResult.ok (pfx.data.map segment.chr) := by
  have : ¬ (pfx ≠ "" ∧ pfx.data.head? ≠ some '/') := by
    rintro ⟨h1, h2⟩
    rcases hv with h | h
    · exact h1 h
    · exact h2 h
  simp [addRegexpMatcher, this, newRouteRegexp_literal lib pfx hb]

/-- For a prefix without variables the outer route matches the paths that begin with it. -/
theorem outer_literal (lib : Lib) (pfx : String) (req : Request)
    (hb : hasBraces pfx = false) (hclean : cleanPath req.Path = req.Path)
    (hpre : HasPrefix req.Path pfx = true) :
    (addRegexpMatcher lib none pfx).isOk = true
      ∧ matchFrom false (addRegexpMatcher lib none pfx).segs req.Path.data 0 = true := by
  have hv := valid_of_HasPrefix _ _ hpre (cleanPath_head _ hclean)
  rw [addRegexpMatcher_none_literal lib pfx hv hb]
  refine ⟨rfl, ?_⟩
  simp only [regexpResult.segs, matchFrom_literal_pfx]
  exact hpre

theorem isPanic_literal (lib : Lib) (parent : Option String) (tpl : String)
    (hpar : ∀ pt, parent = some pt → hasBraces pt = false) (hb : hasBraces tpl = false) :
    (addRegexpMatcher lib parent tpl).isPanic = false := by
  unfold addRegexpMatcher
  split
  · rfl
  · cases parent with
    | none => simp [newRouteRegexp_literal lib tpl hb, regexpResult.isPanic]
    | some pt =>
      have := newRouteRegexp_literal lib (TrimRight pt "/" ++ tpl)
        (hasBraces_append _ _ (hasBraces_TrimRight _ _ (hpar pt rfl)) hb)
      simp [this, regexpResult.isPanic]

theorem literal_iff (h : Handler) :
    h.literal = true ↔
      hasBraces h.pfx = false ∧ ∀ e ∈ h.beforeHandles ++ h.afterHandles, hasBraces e.Path = false := by
  simp only [Handler.literal, Bool.and_eq_true, Bool.not_eq_true', List.all_eq_true]

theorem literal_of_modelled (h : Handler) (hm : h.modelled = true) : h.literal = true := by
  rw [literal_iff]
  simp only [Handler.modelled, Bool.and_eq_true, Bool.not_eq_true', List.all_eq_true] at hm
  exact ⟨hm.1, fun e he => (hm.2 e he).1⟩

theorem isASCII_of_modelled (h : Handler) (hm : h.modelled = true) :
    ∀ e ∈ h.beforeHandles ++ h.afterHandles, isASCII e.Method = true := by
  simp only [Handler.modelled, Bool.and_eq_true, Bool.not_eq_true', List.all_eq_true] at hm
  exact fun e he => (hm.2 e he).2

/-- A configuration without template variables registers its routes without a panic. -/
theorem panics_literal (lib : Lib) (h : Handler) (hl : h.literal = true) :
    h.panics lib = false := by
  rw [literal_iff] at hl
  have hpar : ∀ pt, subrouterParent lib h.pfx = some pt → hasBraces pt = false := by
    intro pt hpt
    unfold subrouterParent at hpt
    split at hpt
    · cases hpt; exact hl.1
    · cases hpt
  unfold Handler.panics
  rw [isPanic_literal lib none h.pfx (fun _ hp => by cases hp) hl.1,
    isPanic_literal lib _ "/" hpar (by decide)]
  simp only [Bool.false_or, Bool.or_false, List.any_eq_false]
  intro e he
  rw [isPanic_literal lib _ e.Path hpar (hl.2 e he)]
  exact Bool.false_ne_true

theorem ToUpperWith_ascii (upper : Char → Char) (m : String) (h : isASCII m = true) :
    ToUpperWith upper m = ToUpper m := by
  unfold ToUpperWith ToUpper
  unfold isASCII at h
  simp only [List.all_eq_true, decide_eq_true_eq] at h
  congr 1
  apply List.map_congr_left
  intro c hc
  simp [h c hc]

/-- The routes `newGatewayHandler` registers, in order. -/
theorem ServeHTTP_routes (lib : Lib) (h : Handler) (gwmux : Request → Response) (req : Request)
    (hgw : h.gwHandlerFunc h.endpoint = .ok gwmux) (hpan : h.panics lib = false)
    (hclean : cleanPath req.Path = req.Path)
    (hok : (addRegexpMatcher lib none h.pfx).isOk = true)
    (hpm : matchFrom false (addRegexpMatcher lib none h.pfx).segs req.Path.data 0 = true) :
    h.ServeHTTP lib req = some
      (match ((loadHandles lib h.pfx Target.before 0 h.beforeHandles).find?
            (fun rt => rt.Match req)).or
          (((if (gatewayRoute lib h.pfx gwmux).Match req then some (gatewayRoute lib h.pfx gwmux)
              else none)).or
            ((loadHandles lib h.pfx Target.after 0 h.afterHandles).find?
              (fun rt => rt.Match req))) with
        | some rt => Outcome.served (rt.handler req)
        | none => Outcome.noRoute) := by
  unfold Handler.ServeHTTP Handler.newGatewayHandler
  rw [hgw]
  simp only [hpan, Bool.false_eq_true, if_false, Router.ServeHTTP, Router.pfxMatch, hclean, hok,
    hpm]
  simp only [List.find?_append, List.find?_cons, List.find?_nil]
  generalize (loadHandles lib h.pfx Target.before 0 h.beforeHandles).find?
    (fun rt => rt.Match req) = fb
  generalize (loadHandles lib h.pfx Target.after 0 h.afterHandles).find?
    (fun rt => rt.Match req) = fa
  cases (gatewayRoute lib h.pfx gwmux).Match req <;> cases fb <;> cases fa <;> simp

/-- What a served request went through. -/
theorem ServeHTTP_served (lib : Lib) (h : Handler) (req : Request) (c : Call)
    (hs : h.ServeHTTP lib req = some (Outcome.served c)) :
    ∃ gwmux, h.gwHandlerFunc h.endpoint = .ok gwmux ∧ h.panics lib = false
      ∧ cleanPath req.Path = req.Path
      ∧ (addRegexpMatcher lib none h.pfx).isOk = true
      ∧ matchFrom false (addRegexpMatcher lib none h.pfx).segs req.Path.data 0 = true
      ∧ ((∃ k e, h.beforeHandles[k]? = some e
            ∧ (handleRoute lib h.pfx Target.gateway e).Match req = true
            ∧ c = rewriteAndServe h.pfx (Target.before k) e.HandleFunc req)
        ∨ ((gatewayRoute lib h.pfx gwmux).Match req = true
            ∧ c = rewriteAndServe h.pfx Target.gateway gwmux req)
        ∨ (∃ k e, h.afterHandles[k]? = some e
            ∧ (handleRoute lib h.pfx Target.gateway e).Match req = true
            ∧ (gatewayRoute lib h.pfx gwmux).Match req = false
            ∧ c = rewriteAndServe h.pfx (Target.after k) e.HandleFunc req)) := by
  cases hgw : h.gwHandlerFunc h.endpoint with
  | error err => simp [Handler.ServeHTTP, Handler.newGatewayHandler, hgw] at hs
  | ok gwmux =>
    have hpan : h.panics lib = false := by
      by_contra hm
      simp [Handler.ServeHTTP, Handler.newGatewayHandler, hgw, hm] at hs
    have hclean : cleanPath req.Path = req.Path := by
      by_contra hm
      simp [Handler.ServeHTTP, Handler.newGatewayHandler, hgw, hpan, Router.ServeHTTP, hm] at hs
    have hok : (addRegexpMatcher lib none h.pfx).isOk = true := by
      by_contra hm
      simp [Handler.ServeHTTP, Handler.newGatewayHandler, hgw, hpan, Router.ServeHTTP, hclean,
        Router.pfxMatch, hm] at hs
    have hpm : matchFrom false (addRegexpMatcher lib none h.pfx).segs req.Path.data 0 = true := by
      by_contra hm
      simp [Handler.ServeHTTP, Handler.newGatewayHandler, hgw, hpan, Router.ServeHTTP, hclean,
        Router.pfxMatch, hok, hm] at hs
    refine ⟨gwmux, rfl, hpan, hclean, hok, hpm, ?_⟩
    rw [ServeHTTP_routes lib h gwmux req hgw hpan hclean hok hpm] at hs
    cases hb : (loadHandles lib h.pfx Target.before 0 h.beforeHandles).find?
        (fun rt => rt.Match req) with
    | some rt =>
      rw [hb] at hs
      simp only [Option.or_some, Option.some.injEq, Outcome.served.injEq] at hs
      obtain ⟨k, e, hk, hrt, hm⟩ := find_loadHandles_some _ _ _ _ _ _ _ hb
      left
      refine ⟨k, e, hk, hm, ?_⟩
      rw [← hs, hrt, handleRoute_handler]
      simp
    | none =>
      rw [hb] at hs
      right
      cases hg : (gatewayRoute lib h.pfx gwmux).Match req with
      | true =>
        left
        simp only [hg, Option.none_or, if_true, Option.or_some, Option.some.injEq,
          Outcome.served.injEq] at hs
        exact ⟨rfl, hs.symm⟩
      | false =>
        right
        simp only [hg, Option.none_or] at hs
        cases ha : (loadHandles lib h.pfx Target.after 0 h.afterHandles).find?
            (fun rt => rt.Match req) with
        | none => rw [ha] at hs; simp at hs
        | some rt =>
          rw [ha] at hs
          simp only [Bool.false_eq_true, if_false, Option.none_or, Option.some.injEq,
            Outcome.served.injEq] at hs
          obtain ⟨k, e, hk, hrt, hm⟩ := find_loadHandles_some _ _ _ _ _ _ _ ha
          refine ⟨k, e, hk, hm, rfl, ?_⟩
          rw [← hs, hrt, handleRoute_handler]
          simp

end GrpcGateway

/-! ## The claims about the path rewrite and the router -/

namespace GrpcGateway

open Mux Strings

theorem append_left_cancel_string (a b c : String) (h : a ++ b = a ++ c) : b = c := by
  apply String.ext
  have := congrArg String.data h
  simpa [String.data_append] using this

theorem HasPrefix_append (a b : String) : HasPrefix (a ++ b) a = true := by
  unfold HasPrefix
  rw [String.data_append]
  exact isPrefixOf_append_self _ _

theorem rewriteAndServe_request (pfx : String) (t : Target) (f : Request → Response)
    (req : Request) :
    (rewriteAndServe pfx t f req).request
      = { Method := req.Method, Path := Replace req.Path pfx "" 1 }
    ∧ (rewriteAndServe pfx t f req).target = t := ⟨rfl, rfl⟩

/-- C4, as amended: in a configuration without template variables whose prefix does not
end in a slash, a request with a canonical path `prefix + p` (`p` empty or beginning with a
slash) and method `m` is dispatched to the first before-entry whose path is `p` and whose
method, upper-cased as `Methods` does, is `m`; that handler sees the path `p`. -/
theorem C4_before_entry_dispatch (lib : Lib) (h : Handler) (gwmux : Request → Response)
    (req : Request) (p m : String) (pre post : List handle) (e : handle)
    (hgw : h.gwHandlerFunc h.endpoint = .ok gwmux)
    (hmod : h.modelled = true)
    (htrail : TrimRight h.pfx "/" = h.pfx)
    (hp : p = "" ∨ p.data.head? = some '/')
    (hclean : cleanPath req.Path = req.Path)
    (hpath : req.Path = h.pfx ++ p) (hmeth : req.Method = m)
    (hlist : h.beforeHandles = pre ++ e :: post)
    (he : e.Path = p ∧ ToUpper e.Method = m)
    (hfirst : ∀ x ∈ pre, ¬ (x.Path = p ∧ ToUpper x.Method = m)) :
    h.ServeHTTP lib req = some (Outcome.served
      { target := Target.before pre.length
        request := { Method := m, Path := p }
        response := e.HandleFunc { Method := m, Path := p } }) := by
  have hpre : HasPrefix req.Path h.pfx = true := by rw [hpath]; exact HasPrefix_append _ _
  have hl := literal_of_modelled h hmod
  have hasc := isASCII_of_modelled h hmod
  have hlit := (literal_iff h).mp hl
  obtain ⟨hok, hpm⟩ := outer_literal lib h.pfx req hlit.1 hclean hpre
  have hpar := subrouterParent_ok lib h.pfx hok
  have hmem : ∀ x ∈ h.beforeHandles, x ∈ h.beforeHandles ++ h.afterHandles :=
    fun x hx => List.mem_append_left _ hx
  rw [ServeHTTP_routes lib h gwmux req hgw (panics_literal lib h hl) hclean hok hpm, hlist,
    loadHandles_append, List.find?_append]
  have hnone : (loadHandles lib h.pfx Target.before 0 pre).find? (fun rt => rt.Match req)
      = none := by
    apply find_loadHandles_none
    intro x hx
    have hxb : x ∈ h.beforeHandles := by rw [hlist]; exact List.mem_append_left _ hx
    cases hm : (handleRoute lib h.pfx Target.gateway x).Match req with
    | false => rfl
    | true =>
      exfalso
      rw [handleRoute_Match lib h.pfx _ x req hpar hlit.1 (hlit.2 x (hmem x hxb)), htrail, hpath,
        ToUpperWith_ascii _ _ (hasc x (hmem x hxb))] at hm
      exact hfirst x hx ⟨(append_left_cancel_string _ _ _ hm.2.1).symm, by rw [← hm.2.2, hmeth]⟩
  have heb : e ∈ h.beforeHandles := by rw [hlist]; simp
  have hmatch : (handleRoute lib h.pfx (Target.before pre.length) e).Match req = true := by
    rw [handleRoute_Match lib h.pfx _ e req hpar hlit.1 (hlit.2 e (hmem e heb)), htrail, he.1,
      ToUpperWith_ascii _ _ (hasc e (hmem e heb)), he.2]
    exact ⟨hp, hpath, hmeth⟩
  rw [hnone]
  simp only [loadHandles, List.find?_cons, Nat.zero_add, hmatch, Option.none_or, Option.or_some]
  rw [handleRoute_handler]
  simp only [rewriteAndServe, hpath, Replace_append_self, hmeth]

/-- C5, as amended: in a configuration without template variables, a request is dispatched
to a before-entry or an after-entry only if its path is the prefix, trailing slashes
dropped, followed by the entry's path and its method is the entry's method upper-cased; and
a request with a canonical path that begins with the prefix and with the prefix (trailing
slashes dropped) followed by a slash, and that matches no before-entry in this way, is
dispatched to the translation catch-all. -/
theorem C5_exact_match_dispatch (lib : Lib) (h : Handler) (req : Request)
    (hlit : h.literal = true) :
    (∀ (c : Call) (i : Nat), h.ServeHTTP lib req = some (Outcome.served c) →
        c.target = Target.before i →
        ∃ e, h.beforeHandles[i]? = some e
          ∧ req.Path = TrimRight h.pfx "/" ++ e.Path
          ∧ req.Method = ToUpperWith lib.unicodeToUpper e.Method)
    ∧ (∀ (c : Call) (i : Nat), h.ServeHTTP lib req = some (Outcome.served c) →
        c.target = Target.after i →
        ∃ e, h.afterHandles[i]? = some e
          ∧ req.Path = TrimRight h.pfx "/" ++ e.Path
          ∧ req.Method = ToUpperWith lib.unicodeToUpper e.Method)
    ∧ (∀ (gwmux : Request → Response), h.gwHandlerFunc h.endpoint = .ok gwmux →
        cleanPath req.Path = req.Path →
        HasPrefix req.Path h.pfx = true →
        HasPrefix req.Path (TrimRight h.pfx "/" ++ "/") = true →
        (∀ e ∈ h.beforeHandles,
          ¬ (req.Path = TrimRight h.pfx "/" ++ e.Path
            ∧ req.Method = ToUpperWith lib.unicodeToUpper e.Method)) →
        h.ServeHTTP lib req = some (Outcome.served
          { target := Target.gateway
            request := { Method := req.Method, Path := Replace req.Path h.pfx "" 1 }
            response := gwmux { Method := req.Method, Path := Replace req.Path h.pfx "" 1 } })) := by
  have hl := (literal_iff h).mp hlit
  refine ⟨?_, ?_, ?_⟩
  · intro c i hs ht
    obtain ⟨gwmux, -, -, -, hok, -, hcase⟩ := ServeHTTP_served lib h req c hs
    have hpar := subrouterParent_ok lib h.pfx hok
    rcases hcase with ⟨k, e, hk, hm, hc⟩ | ⟨-, hc⟩ | ⟨k, e, -, -, -, hc⟩
    · rw [hc] at ht
      have hki : k = i := by simpa [rewriteAndServe] using ht
      subst hki
      have hmem : e ∈ h.beforeHandles ++ h.afterHandles :=
        List.mem_append_left _ (List.getElem?_mem hk)
      rw [handleRoute_Match lib h.pfx _ e req hpar hl.1 (hl.2 e hmem)] at hm
      exact ⟨e, hk, hm.2⟩
    · rw [hc] at ht; simp [rewriteAndServe] at ht
    · rw [hc] at ht; simp [rewriteAndServe] at ht
  · intro c i hs ht
    obtain ⟨gwmux, -, -, -, hok, -, hcase⟩ := ServeHTTP_served lib h req c hs
    have hpar := subrouterParent_ok lib h.pfx hok
    rcases hcase with ⟨k, e, -, -, hc⟩ | ⟨-, hc⟩ | ⟨k, e, hk, hm, -, hc⟩
    · rw [hc] at ht; simp [rewriteAndServe] at ht
    · rw [hc] at ht; simp [rewriteAndServe] at ht
    · rw [hc] at ht
      have hki : k = i := by simpa [rewriteAndServe] using ht
      subst hki
      have hmem : e ∈ h.beforeHandles ++ h.afterHandles :=
        List.mem_append_right _ (List.getElem?_mem hk)
      rw [handleRoute_Match lib h.pfx _ e req hpar hl.1 (hl.2 e hmem)] at hm
      exact ⟨e, hk, hm.2⟩
  · intro gwmux hgw hclean hpre hsub hno
    obtain ⟨hok, hpm⟩ := outer_literal lib h.pfx req hl.1 hclean hpre
    have hpar := subrouterParent_ok lib h.pfx hok
    rw [ServeHTTP_routes lib h gwmux req hgw (panics_literal lib h hlit) hclean hok hpm]
    have hnone : (loadHandles lib h.pfx Target.before 0 h.beforeHandles).find?
        (fun rt => rt.Match req) = none := by
      apply find_loadHandles_none
      intro x hx
      cases hm : (handleRoute lib h.pfx Target.gateway x).Match req with
      | false => rfl
      | true =>
        exfalso
        rw [handleRoute_Match lib h.pfx _ x req hpar hl.1
          (hl.2 x (List.mem_append_left _ hx))] at hm
        exact hno x hx hm.2
    have hg : (gatewayRoute lib h.pfx gwmux).Match req = true := by
      rw [gatewayRoute_Match lib h.pfx gwmux req hpar hl.1]; exact hsub
    rw [hnone, hg]
    rfl

theorem newGatewayHandler_router (lib : Lib) (h : Handler) (r : Router Call)
    (hr : h.newGatewayHandler lib = Built.router r) :
    ∃ gwmux, h.gwHandlerFunc h.endpoint = .ok gwmux ∧ h.panics lib = false
      ∧ r.pfxErr = !(addRegexpMatcher lib none h.pfx).isOk
      ∧ r.pfxRegexp = (addRegexpMatcher lib none h.pfx).segs := by
  unfold Handler.newGatewayHandler at hr
  cases hgw : h.gwHandlerFunc h.endpoint with
  | error err => rw [hgw] at hr; cases hr
  | ok gwmux =>
    rw [hgw] at hr
    simp only at hr
    cases hp : h.panics lib with
    | true => rw [hp] at hr; cases hr
    | false =>
      rw [hp] at hr
      simp only [Bool.false_eq_true, if_false, Built.router.injEq] at hr
      subst hr
      exact ⟨gwmux, rfl, rfl, rfl, rfl⟩

/-- C10, as amended: an after-entry whose path begins with a slash is never the handler a
request is dispatched to, in any configuration; and whenever `newGatewayHandler` returns a
router, every request with a canonical path under the prefix (the prefix route matches it)
that the route of such an after-entry matches is handled by a before-entry or by the
translation catch-all.  When the prefix and the after-entry's path have no template
variables, these are the requests with a canonical path that begins with the prefix, whose
path is the prefix, trailing slashes dropped, followed by the entry's path and whose method
is the entry's method in upper case. -/
theorem C10_after_entry_shadowed (lib : Lib) (h : Handler) (req : Request) (j : Nat)
    (e : handle) (hj : h.afterHandles[j]? = some e) (hslash : e.Path.data.head? = some '/') :
    (∀ c : Call, h.ServeHTTP lib req = some (Outcome.served c) → c.target ≠ Target.after j)
    ∧ (∀ r : Router Call, h.newGatewayHandler lib = Built.router r →
        cleanPath req.Path = req.Path →
        r.pfxMatch req.Path = true →
        (handleRoute lib h.pfx (Target.after j) e).Match req = true →
        ∃ c : Call, h.ServeHTTP lib req = some (Outcome.served c)
          ∧ (c.target = Target.gateway ∨ ∃ i, c.target = Target.before i))
    ∧ (∀ r : Router Call, h.newGatewayHandler lib = Built.router r →
        hasBraces h.pfx = false → hasBraces e.Path = false →
        cleanPath req.Path = req.Path →
        HasPrefix req.Path h.pfx = true →
        req.Path = TrimRight h.pfx "/" ++ e.Path →
        req.Method = ToUpperWith lib.unicodeToUpper e.Method →
        ∃ c : Call, h.ServeHTTP lib req = some (Outcome.served c)
          ∧ (c.target = Target.gateway ∨ ∃ i, c.target = Target.before i)) := by
  have routed : ∀ r : Router Call, h.newGatewayHandler lib = Built.router r →
      cleanPath req.Path = req.Path →
      r.pfxMatch req.Path = true →
      (handleRoute lib h.pfx (Target.after j) e).Match req = true →
      ∃ c : Call, h.ServeHTTP lib req = some (Outcome.served c)
        ∧ (c.target = Target.gateway ∨ ∃ i, c.target = Target.before i) := ?_
  refine ⟨?_, routed, ?_⟩
  · intro c hs ht
    obtain ⟨gwmux, -, -, -, hok, -, hcase⟩ := ServeHTTP_served lib h req c hs
    rcases hcase with ⟨k, e2, -, -, hc⟩ | ⟨-, hc⟩ | ⟨k, e2, hk, hm, hg, hc⟩
    · rw [hc] at ht; simp [rewriteAndServe] at ht
    · rw [hc] at ht; simp [rewriteAndServe] at ht
    · rw [hc] at ht
      have hki : k = j := by simpa [rewriteAndServe] using ht
      subst hki
      rw [hj] at hk
      simp only [Option.some.injEq] at hk
      subst hk
      rw [gatewayRoute_shadows lib h.pfx gwmux _ e req hok hslash hm] at hg
      cases hg
  · intro r hr hb hbe hclean hpre hpath hmeth
    obtain ⟨gwmux, hgw, hpan, herr, hreg⟩ := newGatewayHandler_router lib h r hr
    obtain ⟨hok, hpm⟩ := outer_literal lib h.pfx req hb hclean hpre
    have hpar := subrouterParent_ok lib h.pfx hok
    refine routed r hr hclean ?_
      ((handleRoute_Match lib h.pfx _ e req hpar hb hbe).mpr ⟨Or.inr hslash, hpath, hmeth⟩)
    simp only [Router.pfxMatch, herr, hreg, hok, hpm, Bool.not_true, Bool.not_false,
      Bool.and_self]
  · intro r hr hclean hpfx hm
    obtain ⟨gwmux, hgw, hpan, herr, hreg⟩ := newGatewayHandler_router lib h r hr
    simp only [Router.pfxMatch, herr, hreg, Bool.not_not, Bool.and_eq_true] at hpfx
    obtain ⟨hok, hpm⟩ := hpfx
    rw [ServeHTTP_routes lib h gwmux req hgw hpan hclean hok hpm]
    have hg := gatewayRoute_shadows lib h.pfx gwmux _ e req hok hslash hm
    cases hb : (loadHandles lib h.pfx Target.before 0 h.beforeHandles).find?
        (fun rt => rt.Match req) with
    | none =>
      rw [hg]
      exact ⟨(gatewayRoute lib h.pfx gwmux).handler req, rfl, Or.inl rfl⟩
    | some rt =>
      obtain ⟨k, e2, -, hrt, -⟩ := find_loadHandles_some _ _ _ _ _ _ _ hb
      refine ⟨rt.handler req, rfl, Or.inr ⟨0 + k, ?_⟩⟩
      rw [hrt]; rfl

end GrpcGateway

/-! ## The claims about the error body, the registry lookup and the servers -/

namespace GrpcGateway

open Mux Strings

theorem quote_error : Json.quote "error" = "\"error\"" := by decide

theorem quote_code : Json.quote "code" = "\"code\"" := by decide

theorem quote_message : Json.quote "message" = "\"message\"" := by decide

theorem flatMap_quoteChar_plain :
    ∀ l : List Char, (∀ ch ∈ l, Json.quoteChar ch = [ch]) → l.flatMap Json.quoteChar = l := by
  intro l
  induction l with
  | nil => intro _; rfl
  | cons a l ih =>
    intro h
    rw [List.flatMap_cons, h a (List.mem_cons_self _ _),
      ih (fun ch hch => h ch (List.mem_cons_of_mem _ hch))]
    rfl

theorem marshal_error_body (m : String) (c : Int) :
    Json.marshalValue (Json.Value.object
      [("error", Json.Value.object [("message", Json.Value.str m), ("code", Json.Value.int32 c)])])
    = .ok ("\x7b\"error\":\x7b\"code\":" ++ toString c ++ ",\"message\":" ++ Json.quote m
        ++ "\x7d\x7d") := by
  have h1 : Json.ltList "code".data "message".data = true := by decide
  simp only [Json.marshalValue, Json.marshalFields, Json.sortKeys, List.foldr, Json.insertKey, h1,
    if_true, Json.joinFields, List.map, String.intercalate, String.intercalate.go, quote_error,
    quote_code, quote_message]
  congr 1
  apply String.ext
  simp only [String.data_append, List.append_assoc]
  rfl

/-- C1, as amended: the response gets the status `HTTPStatusFromCode(c)` and the
`Content-type` header of the marshaler, and the body is the JSON object with its keys in
sorted order, `code` before `message`, followed by a newline; for code 5 and message
`missing` the status is 404; a message none of whose characters needs an escape is written
between two quotes as it is. -/
theorem C1_error_response (contentType : String) (err : Grpc.GoError) :
    CustomHTTPError contentType Http.ResponseWriter.fresh err =
      { header := [("Content-type", contentType)]
        sent := some (Grpc.HTTPStatusFromCode (Grpc.codeAndMessage err).1,
          [("Content-type", contentType)])
        body := "\x7b\"error\":\x7b\"code\":"
          ++ toString (Grpc.toInt32 (Grpc.codeAndMessage err).1)
          ++ ",\"message\":" ++ Json.quote (Grpc.codeAndMessage err).2 ++ "\x7d\x7d\n" }
    ∧ (∀ text : String,
        CustomHTTPError contentType Http.ResponseWriter.fresh
            { grpcStatus := some { Code := 5, Message := "missing" }, Error := text } =
          { header := [("Content-type", contentType)]
            sent := some (404, [("Content-type", contentType)])
            body := "\x7b\"error\":\x7b\"code\":5,\"message\":\"missing\"\x7d\x7d\n" })
    ∧ (∀ m : String, (∀ ch ∈ m.data, Json.quoteChar ch = [ch]) →
        Json.quote m = "\"" ++ m ++ "\"") := by
  have main : ∀ e : Grpc.GoError,
      CustomHTTPError contentType Http.ResponseWriter.fresh e =
        { header := [("Content-type", contentType)]
          sent := some (Grpc.HTTPStatusFromCode (Grpc.codeAndMessage e).1,
            [("Content-type", contentType)])
          body := "\x7b\"error\":\x7b\"code\":"
            ++ toString (Grpc.toInt32 (Grpc.codeAndMessage e).1)
            ++ ",\"message\":" ++ Json.quote (Grpc.codeAndMessage e).2 ++ "\x7d\x7d\n" } := by
    intro e
    cases hs : e.grpcStatus with
    | none =>
      simp only [CustomHTTPError, Grpc.FromError, hs, Grpc.codeAndMessage, Grpc.New, Grpc.Unknown,
        Http.Encode, marshal_error_body, Http.ResponseWriter.Write, Http.ResponseWriter.WriteHeader,
        Http.ResponseWriter.setHeader, Http.ResponseWriter.fresh, List.filter]
      congr 1
      apply String.ext
      simp only [String.data_append, List.append_assoc]
      rfl
    | some s =>
      simp only [CustomHTTPError, Grpc.FromError, hs, Grpc.codeAndMessage,
        Http.Encode, marshal_error_body, Http.ResponseWriter.Write, Http.ResponseWriter.WriteHeader,
        Http.ResponseWriter.setHeader, Http.ResponseWriter.fresh, List.filter]
      congr 1
      apply String.ext
      simp only [String.data_append, List.append_assoc]
      rfl
  refine ⟨main err, ?_, ?_⟩
  swap
  · intro m hm
    apply String.ext
    simp only [Json.quote, String.data_append, flatMap_quoteChar_plain m.data hm]
  intro text
  have h5 : toString (Grpc.toInt32 5) = "5" := by decide
  have hq : Json.quote "missing" = "\"missing\"" := by decide
  have hs : Grpc.HTTPStatusFromCode 5 = 404 := rfl
  have hb : "\x7b\"error\":\x7b\"code\":" ++ "5" ++ ",\"message\":" ++ "\"missing\"" ++ "\x7d\x7d\n"
      = "\x7b\"error\":\x7b\"code\":5,\"message\":\"missing\"\x7d\x7d\n" := by decide
  rw [main]
  simp only [Grpc.codeAndMessage, h5, hq, hs, hb]

end GrpcGateway

namespace GrpcGateway

open Mux Strings

theorem firstNodeAddress_none :
    ∀ services : List MicroRegistry.Service,
      (∀ s ∈ services, s.Nodes = []) → firstNodeAddress services = none := by
  intro services
  induction services with
  | nil => intro _; rfl
  | cons s rest ih =>
    intro h
    have hs := h s (List.mem_cons_self _ _)
    simp only [firstNodeAddress, hs]
    exact ih (fun x hx => h x (List.mem_cons_of_mem _ hx))

theorem firstNodeAddress_skip (pre : List MicroRegistry.Service) (r : MicroRegistry.Service)
    (post : List MicroRegistry.Service) (n : MicroRegistry.Node) (ns : List MicroRegistry.Node)
    (hpre : ∀ s ∈ pre, s.Nodes = []) (hr : r.Nodes = n :: ns) :
    firstNodeAddress (pre ++ r :: post) = some n.Address := by
  induction pre with
  | nil => simp [firstNodeAddress, hr]
  | cons s rest ih =>
    have hs := hpre s (List.mem_cons_self _ _)
    simp only [List.cons_append, firstNodeAddress, hs]
    exact ih (fun x hx => hpre x (List.mem_cons_of_mem _ hx))

theorem firstNodeAddress_some :
    ∀ services : List MicroRegistry.Service,
      (∃ s ∈ services, s.Nodes ≠ []) → ∃ a, firstNodeAddress services = some a := by
  intro services
  induction services with
  | nil => rintro ⟨s, hs, -⟩; cases hs
  | cons s rest ih =>
    rintro ⟨x, hx, hne⟩
    cases hn : s.Nodes with
    | cons v vs => exact ⟨v.Address, by simp [firstNodeAddress, hn]⟩
    | nil =>
      simp only [firstNodeAddress, hn]
      apply ih
      rcases List.mem_cons.mp hx with rfl | hmem
      · exact absurd hn hne
      · exact ⟨x, hmem, hne⟩

theorem firstNodeAddress_eq_none_iff (services : List MicroRegistry.Service) :
    firstNodeAddress services = none ↔ ∀ s ∈ services, s.Nodes = [] := by
  constructor
  · intro h s hs
    by_contra hne
    obtain ⟨a, ha⟩ := firstNodeAddress_some services ⟨s, hs, hne⟩
    rw [h] at ha
    cases ha
  · exact firstNodeAddress_none services

/-- C6, as amended: the lookup fails with `not found <name> service` when `GetService`
returns an error, and with `not found nodes in <name> service` when it returns records none
of which has a node, in particular no record at all; these are the only failures, the two
errors differ, a failure returns the empty address, and in every other case the address of
the first node of the first record that has one is returned without an error, whatever
that address is. -/
theorem C6_lookup_errors (reg : MicroRegistry.Registry) (name : String) :
    (∀ e, reg.GetService name = .error e →
        getAddressOfServiceFromRegistry reg name = ("", some ("not found " ++ name ++ " service")))
    ∧ (∀ services, reg.GetService name = .ok services → (∀ s ∈ services, s.Nodes = []) →
        getAddressOfServiceFromRegistry reg name
          = ("", some ("not found nodes in " ++ name ++ " service")))
    ∧ (∀ (pre : List MicroRegistry.Service) (r : MicroRegistry.Service)
        (post : List MicroRegistry.Service) (n : MicroRegistry.Node)
        (ns : List MicroRegistry.Node),
        reg.GetService name = .ok (pre ++ r :: post) → (∀ s ∈ pre, s.Nodes = []) →
        r.Nodes = n :: ns →
        getAddressOfServiceFromRegistry reg name = (n.Address, none))
    ∧ "not found " ++ name ++ " service" ≠ "not found nodes in " ++ name ++ " service"
    ∧ ((getAddressOfServiceFromRegistry reg name).2 ≠ none →
        (getAddressOfServiceFromRegistry reg name).1 = "")
    ∧ ((getAddressOfServiceFromRegistry reg name).2 ≠ none ↔
        ((∃ e, reg.GetService name = .error e)
          ∨ ∃ services, reg.GetService name = .ok services ∧ ∀ s ∈ services, s.Nodes = [])) := by
  refine ⟨?_, ?_, ?_, ?_, ?_, ?_⟩
  · intro e he
    simp [getAddressOfServiceFromRegistry, he]
  · intro services hs hall
    simp [getAddressOfServiceFromRegistry, hs, firstNodeAddress_none services hall]
  · intro pre r post n ns hs hpre hr
    simp [getAddressOfServiceFromRegistry, hs, firstNodeAddress_skip pre r post n ns hpre hr]
  · intro h
    have := congrArg String.length h
    simp only [String.length_append] at this
    have e1 : ("not found " : String).length = 10 := by decide
    have e2 : ("not found nodes in " : String).length = 19 := by decide
    omega
  · intro h
    unfold getAddressOfServiceFromRegistry at h ⊢
    cases hg : reg.GetService name with
    | error e => simp
    | ok services =>
      rw [hg] at h
      cases hf : firstNodeAddress services with
      | none => simp [hf]
      | some a => simp [hf] at h
  · unfold getAddressOfServiceFromRegistry
    cases hg : reg.GetService name with
    | error e => simp
    | ok services =>
      cases hf : firstNodeAddress services with
      | none =>
        have := (firstNodeAddress_eq_none_iff services).mp hf
        simp only [hf, ne_eq, reduceCtorEq, not_false_eq_true, false_or, Except.ok.injEq,
          exists_eq_left', true_iff]
        exact Or.inr this
      | some a =>
        have hne : ¬ ∀ s ∈ services, s.Nodes = [] := by
          intro hall
          rw [(firstNodeAddress_eq_none_iff services).mpr hall] at hf
          cases hf
        simp [hf, hne]

/-- C7, as amended: the address returned is the address of the first node of the first
record that has a node; records without nodes before it are skipped, and no later node or
record influences the result. -/
theorem C7_first_node_of_first_nonempty_record (reg : MicroRegistry.Registry) (name : String)
    (pre : List MicroRegistry.Service) (r : MicroRegistry.Service)
    (post : List MicroRegistry.Service) (n : MicroRegistry.Node) (ns : List MicroRegistry.Node)
    (hans : reg.GetService name = .ok (pre ++ r :: post))
    (hpre : ∀ s ∈ pre, s.Nodes = []) (hr : r.Nodes = n :: ns) :
    getAddressOfServiceFromRegistry reg name = (n.Address, none) := by
  simp [getAddressOfServiceFromRegistry, hans, firstNodeAddress_skip pre r post n ns hpre hr]

/-- C8: in both packages the bind address is the given address unless it is the empty
string; then it is the value of `PLUGIN_SERVER_ADDRESS` when that is set and not empty, and
`127.0.0.1:0` otherwise. -/
theorem C8_bind_address (env : String → Option String) (name address : String) :
    (address ≠ "" →
        (Server env name address).Address = address
        ∧ (HttpServer.Server env name address).Address = address)
    ∧ (address = "" → ∀ v, env "PLUGIN_SERVER_ADDRESS" = some v → v ≠ "" →
        (Server env name address).Address = v
        ∧ (HttpServer.Server env name address).Address = v)
    ∧ (address = "" →
        (env "PLUGIN_SERVER_ADDRESS" = none ∨ env "PLUGIN_SERVER_ADDRESS" = some "") →
        (Server env name address).Address = "127.0.0.1:0"
        ∧ (HttpServer.Server env name address).Address = "127.0.0.1:0") := by
  have hlen : ∀ v : String, v ≠ "" → v.length > 0 := by
    intro v hv
    cases hd : v.data with
    | nil => exact absurd (String.ext hd) hv
    | cons c l =>
      show v.data.length > 0
      rw [hd]; simp
  refine ⟨?_, ?_, ?_⟩
  · intro h
    simp [Server, HttpServer.Server, AddressFromEnvironment, HttpServer.AddressFromEnvironment, h]
  · intro h v hv hne
    have := hlen v hne
    simp [Server, HttpServer.Server, AddressFromEnvironment, HttpServer.AddressFromEnvironment, h,
      ServerAddress, HttpServer.ServerAddress, hv, this]
  · intro h hv
    rcases hv with hv | hv <;>
      simp [Server, HttpServer.Server, AddressFromEnvironment, HttpServer.AddressFromEnvironment,
        h, ServerAddress, HttpServer.ServerAddress, hv]

theorem resolveLoop_ok (reg : Nat → MicroRegistry.Registry) (name : String) (attempts i : Nat)
    (a : String) (h : getAddressOfServiceFromRegistry (reg i) name = (a, none)) :
    resolveLoop reg name attempts i = ([Event.lookup name], .ok a) := by
  rw [resolveLoop, h]

theorem resolveLoop_fatal (reg : Nat → MicroRegistry.Registry) (name : String)
    (attempts i : Nat) (a err : String)
    (h : getAddressOfServiceFromRegistry (reg i) name = (a, some err))
    (hi : i ≥ attempts - 1) :
    resolveLoop reg name attempts i
      = ([Event.lookup name], .error ("Server [grpc-gateway] failed: " ++ err)) := by
  rw [resolveLoop, h]
  simp [hi]

theorem resolveLoop_retry (reg : Nat → MicroRegistry.Registry) (name : String)
    (attempts i : Nat) (a err : String)
    (h : getAddressOfServiceFromRegistry (reg i) name = (a, some err))
    (hi : ¬ i ≥ attempts - 1) :
    resolveLoop reg name attempts i
      = (Event.lookup name :: Event.sleep 3 :: (resolveLoop reg name attempts (i + 1)).1,
          (resolveLoop reg name attempts (i + 1)).2) := by
  rw [resolveLoop, h]
  simp [hi]

theorem failed_lookup (reg : MicroRegistry.Registry) (name : String)
    (h : (getAddressOfServiceFromRegistry reg name).2 ≠ none) :
    ∃ a err, getAddressOfServiceFromRegistry reg name = (a, some err) := by
  cases hg : getAddressOfServiceFromRegistry reg name with
  | mk a e =>
    cases e with
    | none => rw [hg] at h; exact absurd rfl h
    | some err => exact ⟨a, err, rfl⟩

/-- C3: with a service name and no endpoint, two failed lookups followed by a successful
one give exactly three lookups with two sleeps of 3 seconds between them and then the start
of the server with the third lookup's address; when every lookup fails there are exactly
three lookups with two sleeps between them, then `log.Fatal`, and nothing else: no fourth
lookup, no handler is bound and the server is not run. -/
theorem C3_retry_three_attempts (lib : Lib) (reg : Nat → MicroRegistry.Registry) (h : Handler)
    (hname : h.serviceName ≠ "") (hep : h.endpoint = "") :
    (∀ address,
        (getAddressOfServiceFromRegistry (reg 0) h.serviceName).2 ≠ none →
        (getAddressOfServiceFromRegistry (reg 1) h.serviceName).2 ≠ none →
        getAddressOfServiceFromRegistry (reg 2) h.serviceName = (address, none) →
        start lib reg h =
          [Event.lookup h.serviceName, Event.sleep 3, Event.lookup h.serviceName, Event.sleep 3,
            Event.lookup h.serviceName] ++ serve lib { h with endpoint := address })
    ∧ ((∀ k, (getAddressOfServiceFromRegistry (reg k) h.serviceName).2 ≠ none) →
        ∃ err, (getAddressOfServiceFromRegistry (reg 2) h.serviceName).2 = some err
          ∧ start lib reg h =
            [Event.lookup h.serviceName, Event.sleep 3, Event.lookup h.serviceName, Event.sleep 3,
              Event.lookup h.serviceName, Event.fatal ("Server [grpc-gateway] failed: " ++ err)]
          ∧ Event.handle "/" ∉ start lib reg h ∧ Event.run ∉ start lib reg h) := by
  refine ⟨?_, ?_⟩
  · intro address h0 h1 h2
    obtain ⟨a0, e0, h0⟩ := failed_lookup _ _ h0
    obtain ⟨a1, e1, h1⟩ := failed_lookup _ _ h1
    have r2 := resolveLoop_ok reg h.serviceName 3 2 address h2
    have r1 := resolveLoop_retry reg h.serviceName 3 1 a1 e1 h1 (by omega)
    have r0 := resolveLoop_retry reg h.serviceName 3 0 a0 e0 h0 (by omega)
    rw [r2] at r1
    rw [r1] at r0
    simp [start, hname, hep, r0]
  · intro hall
    obtain ⟨a0, e0, h0⟩ := failed_lookup _ _ (hall 0)
    obtain ⟨a1, e1, h1⟩ := failed_lookup _ _ (hall 1)
    obtain ⟨a2, e2, h2⟩ := failed_lookup _ _ (hall 2)
    have r2 := resolveLoop_fatal reg h.serviceName 3 2 a2 e2 h2 (by omega)
    have r1 := resolveLoop_retry reg h.serviceName 3 1 a1 e1 h1 (by omega)
    have r0 := resolveLoop_retry reg h.serviceName 3 0 a0 e0 h0 (by omega)
    rw [r2] at r1
    rw [r1] at r0
    refine ⟨e2, by rw [h2], ?_⟩
    have hs : start lib reg h =
        [Event.lookup h.serviceName, Event.sleep 3, Event.lookup h.serviceName, Event.sleep 3,
          Event.lookup h.serviceName, Event.fatal ("Server [grpc-gateway] failed: " ++ e2)] := by
      simp [start, hname, hep, r0]
    refine ⟨hs, ?_, ?_⟩ <;> rw [hs] <;> simp

end GrpcGateway

namespace GrpcGateway

open Mux Strings

theorem indexList_le (old : List Char) :
    ∀ a b : List Char, ∃ i, indexList old (a ++ old ++ b) = some i ∧ i ≤ a.length := by
  intro a
  induction a with
  | nil =>
    intro b
    exact ⟨0, by simpa using indexList_append_self old b, Nat.le_refl _⟩
  | cons c t ih =>
    intro b
    obtain ⟨i, hi, hle⟩ := ih b
    have hstep : indexList old (c :: (t ++ old ++ b))
        = if old.isPrefixOf (c :: (t ++ old ++ b)) then some 0
          else (indexList old (t ++ old ++ b)).map (· + 1) := rfl
    have hlist : c :: t ++ old ++ b = c :: (t ++ old ++ b) := rfl
    rw [hlist, hstep]
    by_cases hp : old.isPrefixOf (c :: (t ++ old ++ b)) = true
    · rw [if_pos hp]
      exact ⟨0, rfl, Nat.zero_le _⟩
    · rw [if_neg hp, hi]
      exact ⟨i + 1, rfl, Nat.succ_le_succ hle⟩

/-- A string that is `a ++ pfx ++ b` contains `pfx`. -/
theorem Contains_split (a pfx b : String) : Contains (a ++ pfx ++ b) pfx = true := by
  obtain ⟨i, hi, -⟩ := indexList_le pfx.data a.data b.data
  unfold Contains
  simp only [String.data_append]
  rw [hi]
  rfl

/-- The rewrite removes the occurrence of the prefix that begins first in the path. -/
theorem Replace_first (a pfx b : String)
    (hmin : ∀ a2 b2 : String, a2 ++ pfx ++ b2 = a ++ pfx ++ b → a.length ≤ a2.length) :
    Replace (a ++ pfx ++ b) pfx "" 1 = a ++ b := by
  apply String.ext
  unfold Replace
  by_cases hp : pfx.data = []
  · simp [replaceList, hp, String.data_append]
  · show replaceList (a ++ pfx ++ b).data pfx.data [] 1 = (a ++ b).data
    simp only [String.data_append]
    obtain ⟨i, hi, hle⟩ := indexList_le pfx.data a.data b.data
    have hsplit := indexList_split pfx.data _ i hi
    have hge := hmin (String.mk ((a.data ++ pfx.data ++ b.data).take i))
      (String.mk ((a.data ++ pfx.data ++ b.data).drop (i + pfx.data.length)))
      (String.ext (by simpa [String.data_append] using hsplit.symm))
    have hlen : (String.mk ((a.data ++ pfx.data ++ b.data).take i)).length ≤ i := by
      show ((a.data ++ pfx.data ++ b.data).take i).length ≤ i
      simp
    have hia : i = a.data.length := by
      have h1 : a.length = a.data.length := rfl
      omega
    rw [replaceList_one _ _ _ hp hi, hia, List.append_assoc, List.take_left' rfl]
    have : a.data.length + pfx.data.length = (a.data ++ pfx.data).length := by simp
    rw [this, ← List.append_assoc, List.drop_left' rfl]

/-- A path in which the prefix does not occur is left as it is. -/
theorem Replace_absent (path pfx : String) (habs : ∀ a b : String, path ≠ a ++ pfx ++ b) :
    Replace path pfx "" 1 = path := by
  unfold Replace
  cases hi : indexList pfx.data path.data with
  | none => rw [replaceList_none _ _ _ _ hi]
  | some i =>
    exfalso
    have hsplit := indexList_split pfx.data _ i hi
    exact habs (String.mk (path.data.take i)) (String.mk (path.data.drop (i + pfx.data.length)))
      (String.ext (by simpa [String.data_append] using hsplit))

/-- A string contains `pfx` exactly when it is `a ++ pfx ++ b` for some `a` and `b`. -/
theorem Contains_iff (path pfx : String) :
    Contains path pfx = true ↔ ∃ a b : String, path = a ++ pfx ++ b := by
  constructor
  · intro hc
    unfold Contains at hc
    cases hi : indexList pfx.data path.data with
    | none => rw [hi] at hc; cases hc
    | some i =>
      have hsplit := indexList_split pfx.data _ i hi
      exact ⟨String.mk (path.data.take i), String.mk (path.data.drop (i + pfx.data.length)),
        String.ext (by simpa [String.data_append] using hsplit)⟩
  · rintro ⟨a, b, rfl⟩
    exact Contains_split a pfx b

/-- C2, as amended: when the request path is the prefix followed by `rest`, the handler a
request is dispatched to sees the path `rest`, whatever `rest` is; so it finds the prefix in
the path it sees exactly when `rest` contains the prefix, that is when `rest` is
`a ++ prefix ++ b` for some `a` and `b`. -/
theorem C2_rewrite_strips_leading (lib : Lib) (h : Handler) (req : Request) (c : Call)
    (rest : String)
    (hs : h.ServeHTTP lib req = some (Outcome.served c))
    (hpath : req.Path = h.pfx ++ rest) :
    c.request.Path = rest
    ∧ Contains c.request.Path h.pfx = Contains rest h.pfx
    ∧ (Contains c.request.Path h.pfx = true ↔ ∃ a b : String, rest = a ++ h.pfx ++ b) := by
  obtain ⟨gwmux, -, -, -, -, -, hcase⟩ := ServeHTTP_served lib h req c hs
  have hc : c.request.Path = Replace req.Path h.pfx "" 1 := by
    rcases hcase with ⟨k, e, -, -, hc⟩ | ⟨-, hc⟩ | ⟨k, e, -, -, -, hc⟩ <;> rw [hc] <;> rfl
  rw [hc, hpath, Replace_append_self]
  exact ⟨rfl, rfl, Contains_iff rest h.pfx⟩

/-- C2 fails as stated: with the prefix `/api` the path `/api/api/x` begins with the prefix
and the gateway mux is served the path `/api/x`, which contains the prefix. -/
theorem C2_counterexample :
    HasPrefix "/api/api/x" Sample.bare.pfx = true
    ∧ Sample.bare.ServeHTTP Sample.lib { Method := "GET", Path := "/api/api/x" }
        = some (Outcome.served
            { target := Target.gateway
              request := { Method := "GET", Path := "/api/x" }
              response := { status := 200, body := "/api/x" } })
    ∧ Contains "/api/x" Sample.bare.pfx = true := by
  decide

/-- The amended C2 at the request `GET /api/api/x` of the configuration without entries:
the handler sees `/api/x`, in which the prefix occurs as it does in the rest of the path. -/
theorem C2_witness :
    ({ target := Target.gateway
       request := { Method := "GET", Path := "/api/x" }
       response := { status := 200, body := "/api/x" } } : Call).request.Path = "/api/x"
    ∧ ∃ a b : String, "/api/x" = a ++ Sample.bare.pfx ++ b :=
  have hc := C2_rewrite_strips_leading Sample.lib Sample.bare
    { Method := "GET", Path := "/api/api/x" }
    { target := Target.gateway
      request := { Method := "GET", Path := "/api/x" }
      response := { status := 200, body := "/api/x" } }
    "/api/x" (by decide) (by decide)
  ⟨hc.1, hc.2.2.mp (by decide)⟩

/-- C9: every handler a request is dispatched to, whichever list it comes from, sees the
path `strings.Replace(path, prefix, "", 1)` and the method unchanged; that rewrite turns
`prefix ++ rest` into `rest`, leaves a path in which the prefix does not occur unchanged,
removes the occurrence that begins first wherever it is, and keeps every later occurrence
in place. -/
theorem C9_rewrite_first_occurrence :
    (∀ (lib : Lib) (h : Handler) (req : Request) (c : Call),
        h.ServeHTTP lib req = some (Outcome.served c) →
        c.request = { Method := req.Method, Path := Replace req.Path h.pfx "" 1 })
    ∧ (∀ pfx rest : String, Replace (pfx ++ rest) pfx "" 1 = rest)
    ∧ (∀ path pfx : String, (∀ a b : String, path ≠ a ++ pfx ++ b) →
        Replace path pfx "" 1 = path)
    ∧ (∀ path pfx : String, Contains path pfx = false → Replace path pfx "" 1 = path)
    ∧ (∀ a pfx b : String,
        (∀ a2 b2 : String, a2 ++ pfx ++ b2 = a ++ pfx ++ b → a.length ≤ a2.length) →
        Replace (a ++ pfx ++ b) pfx "" 1 = a ++ b)
    ∧ (∀ a pfx b : String, Index (a ++ pfx ++ b) pfx = some a.length →
        Replace (a ++ pfx ++ b) pfx "" 1 = a ++ b)
    ∧ (∀ pfx mid tail : String,
        Replace (pfx ++ mid ++ pfx ++ tail) pfx "" 1 = mid ++ pfx ++ tail)
    ∧ Replace "/x/api/y" "/api" "" 1 = "/x/y"
    ∧ Replace "/x/api/y/api/z" "/api" "" 1 = "/x/y/api/z"
    ∧ Replace "/other/path" "/api" "" 1 = "/other/path"
    ∧ Sample.health.ServeHTTP Sample.lib { Method := "GET", Path := "/api/health" }
        = some (Outcome.served
            { target := Target.before 0
              request := { Method := "GET", Path := "/health" }
              response := { status := 200, body := "ok" } })
    ∧ Sample.health.ServeHTTP Sample.lib { Method := "GET", Path := "/api/unknown/api/x" }
        = some (Outcome.served
            { target := Target.gateway
              request := { Method := "GET", Path := "/unknown/api/x" }
              response := { status := 200, body := "/unknown/api/x" } })
    ∧ Sample.afterRoot.ServeHTTP Sample.lib { Method := "GET", Path := "/api" }
        = some (Outcome.served
            { target := Target.after 0
              request := { Method := "GET", Path := "" }
              response := { status := 200, body := "ok" } })
    ∧ Sample.users.ServeHTTP Sample.lib { Method := "GET", Path := "/api/users/42" }
        = some (Outcome.served
            { target := Target.before 0
              request := { Method := "GET", Path := "/users/42" }
              response := { status := 200, body := "ok" } }) := by
  refine ⟨?_, ?_, ?_, ?_, ?_, ?_, ?_, by decide, by decide, by decide, by decide, by decide,
    by decide, by decide⟩
  · intro lib h req c hs
    obtain ⟨gwmux, -, -, -, -, -, hcase⟩ := ServeHTTP_served lib h req c hs
    rcases hcase with ⟨k, e, -, -, hc⟩ | ⟨-, hc⟩ | ⟨k, e, -, -, -, hc⟩ <;> rw [hc] <;> rfl
  · exact Replace_append_self
  · exact Replace_absent
  · intro path pfx hc
    unfold Contains at hc
    have hn : indexList pfx.data path.data = none := by
      cases hi : indexList pfx.data path.data with
      | none => rfl
      | some i => rw [hi] at hc; cases hc
    unfold Replace
    rw [replaceList_none _ _ _ _ hn]
  · exact Replace_first
  · intro a pfx b hi
    unfold Index at hi
    unfold Replace
    apply String.ext
    by_cases hp : pfx.data = []
    · have h0 : a.length = 0 := by
        rw [hp, indexList_nil] at hi
        exact (Option.some.inj hi).symm
      have ha : a.data = [] := List.length_eq_zero.mp h0
      simp [replaceList, hp, ha, String.data_append]
    · show replaceList (a ++ pfx ++ b).data pfx.data [] 1 = (a ++ b).data
      rw [replaceList_one _ _ _ hp hi]
      simp only [String.data_append, List.append_assoc]
      have hl : a.length = a.data.length := rfl
      rw [hl, List.take_left' rfl]
      have : a.data.length + pfx.data.length = (a.data ++ pfx.data).length := by simp
      rw [this, ← List.append_assoc, List.drop_left' rfl]
  · intro pfx mid tail
    have : pfx ++ mid ++ pfx ++ tail = pfx ++ (mid ++ pfx ++ tail) := by
      apply String.ext
      simp [String.data_append]
    rw [this, Replace_append_self]

/-- C9 at the path `/other/path`, in which the prefix `/api` does not occur, at the path
`/x/api/y`, in which it occurs first after `/x`, and at the request `GET /api/health` of
the sample configuration. -/
theorem C9_witness :
    Replace "/other/path" "/api" "" 1 = "/other/path"
    ∧ Replace ("/x" ++ "/api" ++ "/y") "/api" "" 1 = "/x" ++ "/y"
    ∧ ({ target := Target.before 0
         request := { Method := "GET", Path := "/health" }
         response := { status := 200, body := "ok" } } : Call).request
        = { Method := "GET", Path := Replace "/api/health" Sample.health.pfx "" 1 } :=
  ⟨C9_rewrite_first_occurrence.2.2.1 "/other/path" "/api" (fun a b hab => by
      have hc := Contains_split a "/api" b
      rw [← hab] at hc
      revert hc
      decide),
    C9_rewrite_first_occurrence.2.2.2.2.1 "/x" "/api" "/y" (fun a2 b2 hab => by
      have hd := congrArg String.data hab
      simp only [String.data_append] at hd
      show 2 ≤ a2.data.length
      match hl : a2.data with
      | [] => rw [hl] at hd; simp at hd
      | [c] => rw [hl] at hd; simp at hd
      | _ :: _ :: _ => simp),
    C9_rewrite_first_occurrence.1 Sample.lib Sample.health
      { Method := "GET", Path := "/api/health" } _ (by decide)⟩

/-- C4 fails as stated: the before-entry is registered with path `/health` and method
`get`, the request has path `/api/health` and method `get`, and it is dispatched to the
translation catch-all, because the route matches the upper-cased method `GET` only. -/
theorem C4_counterexample :
    Sample.healthLower.pfx = "/api"
    ∧ Sample.healthLower.beforeHandles.map (fun e => (e.Path, e.Method)) = [("/health", "get")]
    ∧ Sample.healthLower.ServeHTTP Sample.lib { Method := "get", Path := "/api" ++ "/health" }
        = some (Outcome.served
            { target := Target.gateway
              request := { Method := "get", Path := "/health" }
              response := { status := 200, body := "/health" } }) := by
  decide

/-- The amended C4 at prefix `/api`, before-entry `GET /health`, request `GET /api/health`. -/
theorem C4_witness :
    Sample.health.ServeHTTP Sample.lib { Method := "GET", Path := "/api/health" }
      = some (Outcome.served
          { target := Target.before 0
            request := { Method := "GET", Path := "/health" }
            response := { status := 200, body := "ok" } }) :=
  C4_before_entry_dispatch Sample.lib Sample.health Sample.echoMux
    { Method := "GET", Path := "/api/health" }
    "/health" "GET" [] [] { Path := "/health", Method := "GET", HandleFunc := Sample.okHandler }
    rfl (by decide) (by decide) (by decide) (by decide) (by decide) rfl rfl
    ⟨rfl, by decide⟩ (fun _ hx => nomatch hx)

/-- C5 fails as stated: with the prefix `/api` and no entries the request `GET /api` is
under the prefix, matches no entry and is not dispatched to the catch-all, and the request
`GET /api//x` is answered by a redirect; the request `GET /api/health` is dispatched to a
before-entry whose method `get` is not the request's method; the request
`GET /api/users/42` is dispatched to the before-entry `/users/{id}`, whose path after the
prefix is not the request's path; and with the prefix `/api/` the request `GET /api/health`
is dispatched to the before-entry `/health` although its path is not `/api/` followed by
`/health`. -/
theorem C5_counterexample :
    (HasPrefix "/api" Sample.bare.pfx = true
      ∧ Sample.bare.beforeHandles.length = 0 ∧ Sample.bare.afterHandles.length = 0
      ∧ Sample.bare.ServeHTTP Sample.lib { Method := "GET", Path := "/api" }
          = some Outcome.noRoute
      ∧ HasPrefix "/api//x" Sample.bare.pfx = true
      ∧ Sample.bare.ServeHTTP Sample.lib { Method := "GET", Path := "/api//x" }
          = some (Outcome.redirect "/api/x"))
    ∧ (Sample.healthLower.beforeHandles.map (fun e => (e.Path, e.Method)) = [("/health", "get")]
      ∧ Sample.healthLower.ServeHTTP Sample.lib { Method := "GET", Path := "/api/health" }
          = some (Outcome.served
              { target := Target.before 0
                request := { Method := "GET", Path := "/health" }
                response := { status := 200, body := "ok" } })
      ∧ "GET" ≠ "get")
    ∧ (Sample.users.beforeHandles.map (fun e => (e.Path, e.Method)) = [("/users/{id}", "GET")]
      ∧ Sample.users.ServeHTTP Sample.lib { Method := "GET", Path := "/api/users/42" }
          = some (Outcome.served
              { target := Target.before 0
                request := { Method := "GET", Path := "/users/42" }
                response := { status := 200, body := "ok" } })
      ∧ "/api/users/42" ≠ Sample.users.pfx ++ "/users/{id}")
    ∧ (Sample.healthSlash.pfx = "/api/"
      ∧ Sample.healthSlash.beforeHandles.map (fun e => (e.Path, e.Method)) = [("/health", "GET")]
      ∧ Sample.healthSlash.ServeHTTP Sample.lib { Method := "GET", Path := "/api/health" }
          = some (Outcome.served
              { target := Target.before 0
                request := { Method := "GET", Path := "health" }
                response := { status := 200, body := "ok" } })
      ∧ "/api/health" ≠ Sample.healthSlash.pfx ++ "/health") := by
  decide

/-- The amended C5 at the request `GET /api/unknown` of the sample configuration. -/
theorem C5_witness :
    Sample.health.ServeHTTP Sample.lib { Method := "GET", Path := "/api/unknown" }
      = some (Outcome.served
          { target := Target.gateway
            request := { Method := "GET", Path := "/unknown" }
            response := { status := 200, body := "/unknown" } }) :=
  (C5_exact_match_dispatch Sample.lib Sample.health { Method := "GET", Path := "/api/unknown" }
      (by decide)).2.2
    Sample.echoMux rfl (by decide) (by decide) (by decide) (by decide)

/-- C10 fails as stated: the after-entry `GET /a//b` begins with a slash and its route
matches the request `GET /api/a//b`, which is answered by a redirect to `/api/a/b`:
neither a before-entry nor the catch-all handles it.  And with the prefix `/api//` the
route of the after-entry `GET /x` has the template `/api/x` and matches the request
`GET /api/x`, which is not under the prefix and gets no handler. -/
theorem C10_counterexample :
    (Sample.afterDouble.afterHandles.map (fun e => (e.Path, e.Method)) = [("/a//b", "GET")]
      ∧ (handleRoute Sample.lib Sample.afterDouble.pfx (Target.after 0)
          { Path := "/a//b", Method := "GET", HandleFunc := Sample.okHandler }).Match
            { Method := "GET", Path := "/api" ++ "/a//b" } = true
      ∧ Sample.afterDouble.ServeHTTP Sample.lib { Method := "GET", Path := "/api" ++ "/a//b" }
          = some (Outcome.redirect "/api/a/b"))
    ∧ (Sample.afterSlashes.afterHandles.map (fun e => (e.Path, e.Method)) = [("/x", "GET")]
      ∧ (handleRoute Sample.lib Sample.afterSlashes.pfx (Target.after 0)
          { Path := "/x", Method := "GET", HandleFunc := Sample.okHandler }).Match
            { Method := "GET", Path := "/api/x" } = true
      ∧ Sample.afterSlashes.ServeHTTP Sample.lib { Method := "GET", Path := "/api/x" }
          = some Outcome.noRoute) := by
  decide

/-- The amended C10 at prefix `/api`: the after-entry `GET /users/{id:[0-9]+}` and the
request `GET /api/users/42`, the after-entry `GET /late` and the request `GET /api/late`. -/
theorem C10_witness :
    (∀ c : Call, Sample.usersAfter.ServeHTTP Sample.lib { Method := "GET", Path := "/api/users/42" }
        = some (Outcome.served c) → c.target ≠ Target.after 0)
    ∧ (∃ c : Call, Sample.usersAfter.ServeHTTP Sample.lib { Method := "GET", Path := "/api/users/42" }
        = some (Outcome.served c)
      ∧ (c.target = Target.gateway ∨ ∃ i, c.target = Target.before i))
    ∧ (∃ c : Call, Sample.afterLate.ServeHTTP Sample.lib { Method := "GET", Path := "/api/late" }
        = some (Outcome.served c)
      ∧ (c.target = Target.gateway ∨ ∃ i, c.target = Target.before i)) :=
  have hc := C10_after_entry_shadowed Sample.lib Sample.usersAfter
    { Method := "GET", Path := "/api/users/42" } 0
    { Path := "/users/{id:[0-9]+}", Method := "GET", HandleFunc := Sample.okHandler } rfl
    (by decide)
  have hd := C10_after_entry_shadowed Sample.lib Sample.afterLate
    { Method := "GET", Path := "/api/late" } 0
    { Path := "/late", Method := "GET", HandleFunc := Sample.okHandler } rfl (by decide)
  ⟨hc.1, hc.2.1 _ rfl (by decide) (by decide) (by decide),
    hd.2.2 _ rfl (by decide) (by decide) (by decide) (by decide) (by decide) (by decide)⟩

/-- C1 fails as stated: for code 5 and message `missing` the body has the key `code`
before the key `message` and ends with a newline. -/
theorem C1_counterexample :
    (CustomHTTPError "application/json" Http.ResponseWriter.fresh
        { grpcStatus := some { Code := 5, Message := "missing" }, Error := "rpc error" }).body
      = "\x7b\"error\":\x7b\"code\":5,\"message\":\"missing\"\x7d\x7d\n"
    ∧ (CustomHTTPError "application/json" Http.ResponseWriter.fresh
        { grpcStatus := some { Code := 5, Message := "missing" }, Error := "rpc error" }).body
      ≠ "\x7b\"error\":\x7b\"message\":\"missing\",\"code\":5\x7d\x7d" := by
  decide

/-- C7 fails as stated: two registry answers with the same first record, which has no
node, give the addresses of the first node of their second records. -/
theorem C7_counterexample :
    getAddressOfServiceFromRegistry Sample.regUp "greeter" = ("10.0.0.1:80", none)
    ∧ getAddressOfServiceFromRegistry Sample.regUpOther "greeter" = ("10.0.0.3:80", none)
    ∧ Sample.recordsUp.head? = Sample.recordsUpOther.head?
    ∧ Sample.recordsUp.head?.map (fun r => r.Nodes) = some [] := by
  decide

/-- The amended C7 at a registry answer whose first record has no node. -/
theorem C7_witness :
    getAddressOfServiceFromRegistry Sample.regUp "greeter" = ("10.0.0.1:80", none) :=
  C7_first_node_of_first_nonempty_record Sample.regUp "greeter"
    [{ Name := "greeter", Version := "1", Nodes := [] }]
    { Name := "greeter", Version := "2",
      Nodes := [{ Id := "n1", Address := "10.0.0.1:80" }, { Id := "n2", Address := "10.0.0.2:80" }] }
    [] { Id := "n1", Address := "10.0.0.1:80" } [{ Id := "n2", Address := "10.0.0.2:80" }]
    rfl (by decide) rfl

/-- C6 fails as stated: a registry that answers without an error and without records
reports no instances, and the lookup fails with the text of the second error, not of the
first; and a node whose address is empty is returned as a success. -/
theorem C6_counterexample :
    getAddressOfServiceFromRegistry Sample.regNoRecords "greeter"
      = ("", some "not found nodes in greeter service")
    ∧ "not found nodes in greeter service" ≠ "not found greeter service"
    ∧ getAddressOfServiceFromRegistry Sample.regBlank "greeter" = ("", none) := by
  decide

/-- The amended C6 at a registry without the service, one whose record has no node, one
without records and one with nodes. -/
theorem C6_witness :
    getAddressOfServiceFromRegistry Sample.regDown "greeter"
      = ("", some "not found greeter service")
    ∧ getAddressOfServiceFromRegistry Sample.regEmpty "greeter"
      = ("", some "not found nodes in greeter service")
    ∧ getAddressOfServiceFromRegistry Sample.regNoRecords "greeter"
      = ("", some "not found nodes in greeter service")
    ∧ getAddressOfServiceFromRegistry Sample.regUp "greeter" = ("10.0.0.1:80", none) :=
  ⟨(C6_lookup_errors Sample.regDown "greeter").1 "service not found" rfl,
    (C6_lookup_errors Sample.regEmpty "greeter").2.1 _ rfl (by decide),
    (C6_lookup_errors Sample.regNoRecords "greeter").2.1 _ rfl (by decide),
    (C6_lookup_errors Sample.regUp "greeter").2.2.1
      [{ Name := "greeter", Version := "1", Nodes := [] }]
      { Name := "greeter", Version := "2",
        Nodes := [{ Id := "n1", Address := "10.0.0.1:80" },
                  { Id := "n2", Address := "10.0.0.2:80" }] }
      [] { Id := "n1", Address := "10.0.0.1:80" } [{ Id := "n2", Address := "10.0.0.2:80" }]
      rfl (by decide) rfl⟩

/-- C8 at an explicit address, at the sentinel with the variable set, and at the sentinel
without the variable. -/
theorem C8_witness :
    ((Server Sample.envSet "web" "10.1.1.1:80").Address = "10.1.1.1:80"
      ∧ (HttpServer.Server Sample.envSet "web" "10.1.1.1:80").Address = "10.1.1.1:80")
    ∧ ((Server Sample.envSet "web" "").Address = "0.0.0.0:8080"
      ∧ (HttpServer.Server Sample.envSet "web" "").Address = "0.0.0.0:8080")
    ∧ ((Server Sample.envEmpty "web" "").Address = "127.0.0.1:0"
      ∧ (HttpServer.Server Sample.envEmpty "web" "").Address = "127.0.0.1:0") :=
  ⟨(C8_bind_address Sample.envSet "web" "10.1.1.1:80").1 (by decide),
    (C8_bind_address Sample.envSet "web" "").2.1 rfl "0.0.0.0:8080" (by decide) (by decide),
    (C8_bind_address Sample.envEmpty "web" "").2.2 rfl (Or.inl rfl)⟩

/-- C3 at a registry that is down for two lookups and up at the third, and at a registry
that is always down. -/
theorem C3_witness :
    start Sample.lib (fun k => if k < 2 then Sample.regDown else Sample.regUp) Sample.byName
      = [Event.lookup "greeter", Event.sleep 3, Event.lookup "greeter", Event.sleep 3,
          Event.lookup "greeter",
          Event.println "Server [grpc-gateway] endpoint: 10.0.0.1:80",
          Event.handle "/", Event.run]
    ∧ start Sample.lib (fun _ => Sample.regDown) Sample.byName
      = [Event.lookup "greeter", Event.sleep 3, Event.lookup "greeter", Event.sleep 3,
          Event.lookup "greeter",
          Event.fatal "Server [grpc-gateway] failed: not found greeter service"] := by
  have h1 := (C3_retry_three_attempts Sample.lib
    (fun k => if k < 2 then Sample.regDown else Sample.regUp)
    Sample.byName (by decide) rfl).1 "10.0.0.1:80" (by decide) (by decide) (by decide)
  obtain ⟨err, he, h2, -, -⟩ := (C3_retry_three_attempts Sample.lib (fun _ => Sample.regDown)
    Sample.byName (by decide) rfl).2 (fun _ => by decide)
  have herr : err = "not found greeter service" := by
    have : (getAddressOfServiceFromRegistry Sample.regDown Sample.byName.serviceName).2
        = some "not found greeter service" := by decide
    rw [this] at he
    exact (Option.some.inj he).symm
  subst herr
  exact ⟨h1, h2⟩

end GrpcGateway
